import Mathlib

/-!
# Playlist export: a shallow embedding of `export.go`

The Go function `ExportPlaylists` and the four writer triples of `export.go` are
rendered as Lean functions over an explicit model of the file system.

Conventions.

* A Go `string` is a sequence of bytes.  It is represented by a Lean `String`
  whose characters stand for the bytes (the character with code `n` is the byte
  `n`); every literal of `export.go` is ASCII, so literals are written as they
  appear in the source.
* A Go `error` value is `Option GoError`, `none` being `nil`.
* A path is not a file: `Env.resolve` gives the file a path names on the host,
  so that two paths can name one file (a link, `..` through the working
  directory, a volume that ignores case).  The content of the file system is
  kept by file, not by path.
* Every call that reaches the operating system (`os.OpenFile`, `Write`) is one
  step; `Env.outcome n` tells whether step `n` succeeds, so failures at any
  point of a run can be expressed.  `World.ticks` counts the steps made so far.
* The progress lines printed with `fmt.Printf` are not part of the model.
-/

namespace ItunesExport

/-! ## Data model -/

/-- Go error values that can flow through `ExportPlaylists`. -/
inductive GoError where
  /-- A value built by `errors.New`. -/
  | errorsNew (text : String)
  /-- An error reported by the operating system for an open or a write. -/
  | osError (text : String)
  /-- The `url.EscapeError` of `net/url`, carrying the offending fragment. -/
  | escapeError (fragment : String)
deriving DecidableEq

/-- Modelled from the spec: the declaration of `Track` is outside `export.go`;
these are the fields `export.go` reads ("name, artist, total playback duration in
milliseconds, stored location string"). -/
structure Track where
  Name : String
  Artist : String
  TotalTime : Int
  Location : String
deriving DecidableEq

/-- Modelled from the spec: the declaration of `Playlist` is outside `export.go`;
"a named ordered sequence of track references plus a display name". -/
structure Playlist where
  Name : String
  TrackIDs : List Nat
deriving DecidableEq

/-- Modelled from the spec: the declaration of `Library` is outside `export.go`;
"the owning collection that resolves a playlist's track identifiers into full
Track records". -/
structure Library where
  lookup : Nat → Option Track

/-- The type `ExportSettings` of `export.go`. -/
structure ExportSettings where
  Library : ItunesExport.Library
  Playlists : List Playlist
  ExportType : Int
  OutputPath : String
  Extension : String

/-- The constant `M3U` of `export.go` (`iota` = 0). -/
def M3U : Int := 0
/-- The constant `EXT` of `export.go`. -/
def EXT : Int := 1
/-- The constant `WPL` of `export.go`. -/
def WPL : Int := 2
/-- The constant `ZPL` of `export.go`. -/
def ZPL : Int := 3

/-! ## The environment of a run -/

/-- What the operating system answers to one open or write. -/
inductive Outcome where
  /-- The call succeeds. -/
  | ok
  /-- The call fails with an error; a failing write has put `written` bytes
  (at most the length of its argument) into the file before failing. -/
  | fail (written : Nat) (text : String)
deriving DecidableEq

/-- Identity of a file on the host, written as the absolute path of the file. -/
abbrev FileId := String

/-- Everything `export.go` uses and does not define: the rest of the package
(`isWindows`, `Version`, `Playlist.Tracks`) and the host (`filepath.Join`, the
resolution of paths, the clock, the behaviour of the file system). -/
structure Env where
  /-- Result of the package function `isWindows()`. -/
  isWindows : Bool
  /-- The package-level `Version`, as `%v` prints it. -/
  Version : String
  /-- The method `playlist.Tracks(library)`. -/
  Tracks : Playlist → Library → List Track
  /-- The function `filepath.Join` applied to two elements. -/
  join : String → String → String
  /-- The file a path names when the host opens it: the path is resolved
  against the working directory, through links and by the rules of the volume.
  Nothing a run does changes it. -/
  resolve : String → FileId
  /-- The text `time.Now().Format("2006-01-02 3:04PM")` evaluated at step `n`. -/
  now : Nat → String
  /-- Whether the `n`-th call to the operating system succeeds. -/
  outcome : Nat → Outcome

/-- The state a run acts on. -/
structure World where
  /-- Content of every file that exists. -/
  files : FileId → Option String
  /-- The file handles that are open, each written as the name it was opened
  with, most recent first. -/
  openFiles : List String
  /-- Number of calls to the operating system made so far. -/
  ticks : Nat

/-- Result of a call that returns an `error`. -/
structure Result where
  err : Option GoError
  world : World

/-- The file system `files` with the content of the file `f` replaced. -/
def setFile (files : FileId → Option String) (f : FileId) (content : String) :
    FileId → Option String :=
  fun q => if q = f then some content else files q

/-- The first `n` bytes of `s`. -/
def takeBytes (n : Nat) (s : String) : String := ⟨s.data.take n⟩

/-- Result of `os.OpenFile`. -/
structure Opened where
  file : Option String
  err : Option GoError
  world : World

/-- The call `os.OpenFile(name, os.O_WRONLY|os.O_CREATE|os.O_TRUNC, 0666)`: on
success the file that `name` resolves to exists and is empty, and a handle on
it is open; on failure the returned file is `nil` and no file changes. -/
def OpenFile (env : Env) (name : String) (w : World) : Opened :=
  match env.outcome w.ticks with
  | Outcome.ok =>
    { file := some name, err := none,
      world := { files := setFile w.files (env.resolve name) "",
                 openFiles := name :: w.openFiles, ticks := w.ticks + 1 } }
  | Outcome.fail _ text =>
    { file := none, err := some (GoError.osError text),
      world := { w with ticks := w.ticks + 1 } }

/-- The method `Write` of `*os.File`, the `io.Writer` every emitter is given.
The bytes go to the file the handle was opened on, the one its name resolves
to.  The handle was opened write-only without `O_APPEND` on a truncated file
and is the only one written to until it is abandoned, so a write appends.  On
a `nil` file it fails with `os.ErrInvalid` without reaching the operating
system. -/
def Write (env : Env) (file : Option String) (b : String) (w : World) : Result :=
  match file with
  | none => { err := some (GoError.osError "invalid argument"), world := w }
  | some path =>
    match env.outcome w.ticks with
    | Outcome.ok =>
      { err := none,
        world := { w with
          files := setFile w.files (env.resolve path)
            (((w.files (env.resolve path)).getD "") ++ b),
          ticks := w.ticks + 1 } }
    | Outcome.fail n text =>
      { err := some (GoError.osError text),
        world := { w with
          files := setFile w.files (env.resolve path)
            (((w.files (env.resolve path)).getD "") ++ takeBytes n b),
          ticks := w.ticks + 1 } }

/-- The method `Close` of `*os.File`; its error is discarded by `defer`. -/
def Close (file : Option String) (w : World) : World :=
  match file with
  | none => w
  | some path => { w with openFiles := w.openFiles.erase path }

/-! ## Standard-library functions used by `export.go` -/

/-- The function `strings.HasPrefix`. -/
def HasPrefix (s pre : String) : Bool := pre.data.isPrefixOf s.data

/-- The function `strings.TrimPrefix`: `s` without the leading `prefix`, or `s`
itself when it does not start with `prefix`. -/
def TrimPrefix (s pre : String) : String :=
  if HasPrefix s pre then ⟨s.data.drop pre.data.length⟩ else s

/-- The function `ishex` of `net/url`. -/
def ishex (c : Char) : Bool :=
  ('0' ≤ c && c ≤ '9') || ('a' ≤ c && c ≤ 'f') || ('A' ≤ c && c ≤ 'F')

/-- The function `unhex` of `net/url`. -/
def unhex (c : Char) : Nat :=
  if '0' ≤ c && c ≤ '9' then c.toNat - '0'.toNat
  else if 'a' ≤ c && c ≤ 'f' then c.toNat - 'a'.toNat + 10
  else if 'A' ≤ c && c ≤ 'F' then c.toNat - 'A'.toNat + 10
  else 0

/-- First loop of `unescape` in `net/url` (mode `encodeQueryComponent`): every
`%` must be followed by two hexadecimal digits; the first one that is not makes
the call fail with the fragment of at most three bytes starting there. -/
def unescapeCheck : List Char → Option GoError
  | [] => none
  | c :: rest =>
    if c = '%' then
      match rest with
      | h :: l :: rest' =>
        if ishex h && ishex l then unescapeCheck rest'
        else some (GoError.escapeError ⟨[c, h, l]⟩)
      | _ => some (GoError.escapeError ⟨c :: rest⟩)
    else unescapeCheck rest

/-- Second loop of `unescape` in `net/url` (mode `encodeQueryComponent`): `%XY`
becomes the byte `XY`, `+` becomes a space, any other byte is copied.  It runs
only when the first loop found no error, so a `%` always has its two digits. -/
def unescapeBuild : List Char → List Char
  | [] => []
  | c :: rest =>
    if c = '%' then
      match rest with
      | h :: l :: rest' => Char.ofNat (unhex h * 16 + unhex l) :: unescapeBuild rest'
      | _ => []
    else if c = '+' then ' ' :: unescapeBuild rest
    else c :: unescapeBuild rest

/-- The function `url.QueryUnescape`: the decoded string and `nil`, or the
empty string and an error. -/
def QueryUnescape (s : String) : String × Option GoError :=
  match unescapeCheck s.data with
  | some e => ("", some e)
  | none => (⟨unescapeBuild s.data⟩, none)

/-- How `%v` prints an `int`: decimal digits, with a leading `-` when negative. -/
def formatInt (i : Int) : String :=
  match i with
  | Int.ofNat n => Nat.repr n
  | Int.negSucc n => "-" ++ Nat.repr (n + 1)

/-- Concatenation of a list of strings, in order. -/
def concatAll : List String → String
  | [] => ""
  | s :: rest => s ++ concatAll rest

/-! ## The writer triples -/

/-- The type `playlistWriter` of `export.go`; the `io.Writer` is the file. -/
abbrev playlistWriter := Option String → ExportSettings → Playlist → World → Result

/-- The type `trackWriter` of `export.go`. -/
abbrev trackWriter :=
  Option String → ExportSettings → Playlist → Track → String → World → Result

/-- A header, entry and footer writer, as the four constructors return them. -/
structure Writers where
  header : playlistWriter
  entry : trackWriter
  footer : playlistWriter

/-- The text `fmt.Sprintf(headerString, playlist.Name, now, Version)` of
`m3uPlaylistWriters`. -/
def m3uHeaderString (name now version : String) : String :=
  "# M3U Playlist '" ++ name ++ "' exported " ++ now ++ " by iTunes Export v. " ++ version ++
    " (http://www.ericdaugherty.com/dev/itunesexport/)\n"

/-- The text `fmt.Sprintf(entryString, fileLocation)` of `m3uPlaylistWriters`. -/
def m3uEntryString (fileLocation : String) : String := fileLocation ++ "\n"

/-- The function `m3uPlaylistWriters`. -/
def m3uPlaylistWriters (env : Env) : Writers where
  header := fun w _ playlist world =>
    Write env w (m3uHeaderString playlist.Name (env.now world.ticks) env.Version) world
  entry := fun w _ _ _ fileLocation world => Write env w (m3uEntryString fileLocation) world
  footer := fun _ _ _ world => { err := none, world := world }

/-- The text `fmt.Sprintf(headerString)` of `extPlaylistWriters`. -/
def extHeaderString : String := "#EXTM3U\n"

/-- The text `fmt.Sprintf(entryString, track.TotalTime/1000, track.Artist,
track.Name, fileLocation)` of `extPlaylistWriters`; Go's `/` on `int` truncates
toward zero. -/
def extEntryString (track : Track) (fileLocation : String) : String :=
  "#EXTINF:" ++ formatInt (track.TotalTime.tdiv 1000) ++ "," ++ track.Artist ++ " - " ++
    track.Name ++ "\n" ++ fileLocation ++ "\n"

/-- The function `extPlaylistWriters`. -/
def extPlaylistWriters (env : Env) : Writers where
  header := fun w _ _ world => Write env w extHeaderString world
  entry := fun w _ _ track fileLocation world =>
    Write env w (extEntryString track fileLocation) world
  footer := fun _ _ _ world => { err := none, world := world }

/-- The text `fmt.Sprintf(headerString, playlist.Name)` of `wplPlaylistWriters`;
the constant is a raw string literal, so its backslashes are part of the text. -/
def wplHeaderString (name : String) : String :=
  "<?wpl version=\\\"1.0\\\"?>\n<smil>\n  <head>\n    <author />\n    <title>" ++ name ++
    "</title>\n  </head>\n  <body>\n    <seq>\n"

/-- The text `fmt.Sprintf(entryString, fileLocation)` of `wplPlaylistWriters`. -/
def wplEntryString (fileLocation : String) : String :=
  "      <media src=" ++ fileLocation ++ "></media>\n"

/-- The constant `footerString` of `wplPlaylistWriters`. -/
def wplFooterString : String := "    </seq>\n  </body>\n</smil>\n"

/-- The function `wplPlaylistWriters`. -/
def wplPlaylistWriters (env : Env) : Writers where
  header := fun w _ playlist world => Write env w (wplHeaderString playlist.Name) world
  entry := fun w _ _ _ fileLocation world => Write env w (wplEntryString fileLocation) world
  footer := fun w _ _ world => Write env w wplFooterString world

/-- The text `fmt.Sprintf(headerString, playlist.Name)` of `zplPlaylistWriters`. -/
def zplHeaderString (name : String) : String :=
  "<?zpl version=\\\"1.0\\\"?>\n<smil>\n  <head>\n" ++
    "    <meta name=\"Generator\" content=\"Zune -- 1.3.5728.0\" />\n" ++
    "    <author />\n    <title>" ++ name ++ "</title>\n  </head>\n  <body>\n    <seq>\n"

/-- The text `fmt.Sprintf(entryString, fileLocation)` of `zplPlaylistWriters`. -/
def zplEntryString (fileLocation : String) : String :=
  "      <media src=" ++ fileLocation ++ "></media>\n"

/-- The constant `footerString` of `zplPlaylistWriters`. -/
def zplFooterString : String := "    </seq>\n  </body>\n</smil>\n"

/-- The function `zplPlaylistWriters`. -/
def zplPlaylistWriters (env : Env) : Writers where
  header := fun w _ playlist world => Write env w (zplHeaderString playlist.Name) world
  entry := fun w _ _ _ fileLocation world => Write env w (zplEntryString fileLocation) world
  footer := fun w _ _ world => Write env w zplFooterString world

/-! ## The export driver -/

/-- The `switch exportSettings.ExportType` of `ExportPlaylists`; `none` is the
`default` branch. -/
def selectWriters (env : Env) (exportType : Int) : Option Writers :=
  if exportType = M3U then some (m3uPlaylistWriters env)
  else if exportType = EXT then some (extPlaylistWriters env)
  else if exportType = WPL then some (wplPlaylistWriters env)
  else if exportType = ZPL then some (zplPlaylistWriters env)
  else none

/-- Lines 69 to 73 of `export.go`: the value of `fileLocation` and of `errParse`
when the check `errParse != nil` is reached. -/
def fileLocation (env : Env) (track : Track) : String × Option GoError :=
  let r := QueryUnescape track.Location
  let loc := TrimPrefix r.1 "file://localhost"
  let loc := if env.isWindows then TrimPrefix loc "/" else loc
  (loc, r.2)

/-- The loop `for _, track := range playlist.Tracks(...)` of `ExportPlaylists`,
over the tracks still to visit: a track whose location does not parse is
skipped, the first failing entry ends the function with its error. -/
def writeTracks (env : Env) (entry : trackWriter) (file : Option String)
    (exportSettings : ExportSettings) (playlist : Playlist) : List Track → World → Result
  | [], w => { err := none, world := w }
  | track :: rest, w =>
    match (fileLocation env track).2 with
    | some _ => writeTracks env entry file exportSettings playlist rest w
    | none =>
      let r := entry file exportSettings playlist track (fileLocation env track).1 w
      match r.err with
      | some err => { err := some err, world := r.world }
      | none => writeTracks env entry file exportSettings playlist rest r.world

/-- Result of one iteration of the loop over the playlists. -/
structure Step where
  /-- The error the function returns with, `nil` when the loop goes on. -/
  err : Option GoError
  /-- The file whose `Close` the iteration has deferred. -/
  deferred : Option String
  world : World

/-- The name `filepath.Join(exportSettings.OutputPath,
playlist.Name+"."+exportSettings.Extension)` of a playlist's file. -/
def fileName (env : Env) (exportSettings : ExportSettings) (playlist : Playlist) : String :=
  env.join exportSettings.OutputPath (playlist.Name ++ "." ++ exportSettings.Extension)

/-- The file a playlist is written to: the one its file name resolves to. -/
def fileOf (env : Env) (exportSettings : ExportSettings) (playlist : Playlist) : FileId :=
  env.resolve (fileName env exportSettings playlist)

/-- The body of the loop `for _, playlist := range exportSettings.Playlists`
(lines 35 to 90 of `export.go`) for one playlist. -/
def exportPlaylist (env : Env) (exportSettings : ExportSettings) (playlist : Playlist)
    (w : World) : Step :=
  let o := OpenFile env (fileName env exportSettings playlist) w
  match o.err with
  | some err => { err := some err, deferred := o.file, world := o.world }
  | none =>
    match selectWriters env exportSettings.ExportType with
    | none =>
      { err := some (GoError.errorsNew "Export Type Not Implemented"), deferred := o.file,
        world := o.world }
    | some wr =>
      let h := wr.header o.file exportSettings playlist o.world
      match h.err with
      | some err => { err := some err, deferred := o.file, world := h.world }
      | none =>
        let b := writeTracks env wr.entry o.file exportSettings playlist
          (env.Tracks playlist exportSettings.Library) h.world
        match b.err with
        | some err => { err := some err, deferred := o.file, world := b.world }
        | none =>
          let f := wr.footer o.file exportSettings playlist b.world
          { err := f.err, deferred := o.file, world := f.world }

/-- State of `ExportPlaylists` when the loop over the playlists ends. -/
structure Loop where
  err : Option GoError
  /-- The deferred calls of `Close`, the last registered first. -/
  deferred : List (Option String)
  world : World

/-- The loop `for _, playlist := range exportSettings.Playlists`, over the
playlists still to visit; `deferred` holds the files whose `Close` is pending. -/
def exportLoop (env : Env) (exportSettings : ExportSettings) :
    List Playlist → List (Option String) → World → Loop
  | [], deferred, w => { err := none, deferred := deferred, world := w }
  | playlist :: rest, deferred, w =>
    let s := exportPlaylist env exportSettings playlist w
    match s.err with
    | some err => { err := some err, deferred := s.deferred :: deferred, world := s.world }
    | none => exportLoop env exportSettings rest (s.deferred :: deferred) s.world

/-- The deferred calls run when `ExportPlaylists` returns, last registered
first. -/
def runDeferred : List (Option String) → World → World
  | [], w => w
  | file :: rest, w => runDeferred rest (Close file w)

/-- The function `ExportPlaylists`. -/
def ExportPlaylists (env : Env) (exportSettings : ExportSettings) (w : World) : Result :=
  let l := exportLoop env exportSettings exportSettings.Playlists [] w
  { err := l.err, world := runDeferred l.deferred l.world }

/-! ## Specification-side definitions -/

/-- Tracks of a list whose stored location decodes without error. -/
def retainedTracks (tracks : List Track) : List Track :=
  tracks.filter (fun t => decide ((QueryUnescape t.Location).2 = none))

/-- Bytes the header writer of a supported format hands to `Write`. -/
def headerOf (env : Env) (exportType : Int) (playlist : Playlist) (now : String) : String :=
  if exportType = M3U then m3uHeaderString playlist.Name now env.Version
  else if exportType = EXT then extHeaderString
  else if exportType = WPL then wplHeaderString playlist.Name
  else zplHeaderString playlist.Name

/-- Bytes the entry writer of a supported format hands to `Write`. -/
def entryOf (exportType : Int) (track : Track) (fileLocation : String) : String :=
  if exportType = M3U then m3uEntryString fileLocation
  else if exportType = EXT then extEntryString track fileLocation
  else if exportType = WPL then wplEntryString fileLocation
  else zplEntryString fileLocation

/-- Texts the footer writer of a supported format hands to `Write`: none for
the two list formats, whose footer returns without writing. -/
def footerOf (exportType : Int) : List String :=
  if exportType = M3U then []
  else if exportType = EXT then []
  else if exportType = WPL then [wplFooterString]
  else [zplFooterString]

/-- Texts a supported format writes for a playlist, one per call of `Write`, in
order: the header, an entry per retained track, the footer. -/
def pieces (env : Env) (exportType : Int) (playlist : Playlist) (now : String)
    (tracks : List Track) : List String :=
  headerOf env exportType playlist now ::
    ((retainedTracks tracks).map (fun t => entryOf exportType t (fileLocation env t).1) ++
      footerOf exportType)

/-- Outcome of a sequence of writes. -/
structure Written where
  err : Option GoError
  content : String
  ticks : Nat

/-- Writing the texts `l` one after the other to a file that holds `content`,
starting at step `tick` and stopping at the first write that fails. -/
def writeAll (env : Env) : List String → Nat → String → Written
  | [], tick, content => { err := none, content := content, ticks := tick }
  | s :: rest, tick, content =>
    match env.outcome tick with
    | Outcome.ok => writeAll env rest (tick + 1) (content ++ s)
    | Outcome.fail n text =>
      { err := some (GoError.osError text), content := content ++ takeBytes n s,
        ticks := tick + 1 }

/-- A writer triple each of whose members hands one text to `Write`, the footer
possibly none. -/
def textWriters (env : Env) (H : Playlist → Nat → String) (E : Track → String → String)
    (F : List String) : Writers where
  header := fun f _ p w => Write env f (H p w.ticks) w
  entry := fun f _ _ t l w => Write env f (E t l) w
  footer := fun f _ _ w =>
    match F with
    | [] => { err := none, world := w }
    | s :: _ => Write env f s w

/-! ## A host with `/` as path separator, and sample data -/

/-- The elements of a path between its separators `/`. -/
def splitSlash : List Char → List (List Char)
  | [] => [[]]
  | c :: cs =>
    if c = '/' then [] :: splitSlash cs
    else
      match splitSlash cs with
      | [] => [[c]]
      | x :: xs => (c :: x) :: xs

/-- One element of the loop of `filepath.Clean`, on the elements kept so far
(last one first): empty and `.` elements are dropped, `..` removes the last
element kept, or is kept itself at the start of a path that is not rooted. -/
def cleanStep (rooted : Bool) (kept : List (List Char)) (elem : List Char) :
    List (List Char) :=
  if elem = [] ∨ elem = ['.'] then kept
  else if elem = ['.', '.'] then
    match kept with
    | [] => if rooted then [] else [elem]
    | top :: below => if top = ['.', '.'] then elem :: kept else below
  else elem :: kept

/-- The elements `l` separated by `/`. -/
def joinSlash : List (List Char) → List Char
  | [] => []
  | [x] => x
  | x :: y :: rest => x ++ '/' :: joinSlash (y :: rest)

/-- The function `filepath.Clean` where the separator is `/` and there are no
volume names. -/
def Clean (path : String) : String :=
  if path = "" then "."
  else
    let rooted := path.data.head? = some '/'
    let kept := (splitSlash path.data).foldl (cleanStep rooted) []
    let out := (if rooted then ['/'] else []) ++ joinSlash kept.reverse
    if out = [] then "." else ⟨out⟩

/-- The function `filepath.Join` for two elements where the separator is `/`:
empty leading elements are ignored, the rest is joined with `/` and cleaned. -/
def unixJoin (a b : String) : String :=
  if a ≠ "" then Clean (a ++ "/" ++ b)
  else if b ≠ "" then Clean b
  else ""

/-- Path resolution on a host with `/` as separator, without links, that
tells upper from lower case, for a process whose working directory is `/work`:
a rooted path is cleaned, any other path is joined to `/work`. -/
def sampleResolve (path : String) : FileId :=
  if path.data.head? = some '/' then Clean path else unixJoin "/work" path

/-- A host on which every call succeeds, with `/` as separator and the
working directory `/work`, and a package whose `Tracks` looks each identifier
up in the library. -/
def sampleEnv (isWindows : Bool) : Env where
  isWindows := isWindows
  Version := "1.0"
  Tracks := fun p lib => p.TrackIDs.filterMap lib.lookup
  join := unixJoin
  resolve := sampleResolve
  now := fun _ => "2024-01-02 3:04PM"
  outcome := fun _ => Outcome.ok

/-- The host of `sampleEnv false`, except that its call number `k` fails with
"permission denied", after `written` bytes when it is a write. -/
def failingEnv (k written : Nat) : Env where
  isWindows := false
  Version := "1.0"
  Tracks := fun p lib => p.TrackIDs.filterMap lib.lookup
  join := unixJoin
  resolve := sampleResolve
  now := fun _ => "2024-01-02 3:04PM"
  outcome := fun n => if n = k then Outcome.fail written "permission denied" else Outcome.ok

/-- A track stored with the `file://localhost` form of a Windows path. -/
def sampleTrack : Track where
  Name := "Song"
  Artist := "Band"
  TotalTime := 185500
  Location := "file://localhost/C:/Music/song.mp3"

/-- A library of six tracks: the location of track 3 is not validly encoded,
the name of track 4 and the decoded location of track 5 hold a newline, and the
duration of track 6 is negative. -/
def sampleLibrary : Library where
  lookup := fun n =>
    if n = 1 then some sampleTrack
    else if n = 2 then
      some { Name := "Tune", Artist := "Duo", TotalTime := 61000,
             Location := "file://localhost/C:/Music/a%20tune.mp3" }
    else if n = 3 then
      some { Name := "Bad", Artist := "Nobody", TotalTime := 1000, Location := "%" }
    else if n = 4 then
      some { Name := "Two\n#EXTINF:0,lines", Artist := "Solo", TotalTime := 1000,
             Location := "solo.mp3" }
    else if n = 5 then
      some { Name := "Split", Artist := "Trio", TotalTime := 2000, Location := "a%0Ab.mp3" }
    else if n = 6 then
      some { Name := "Odd", Artist := "Quartet", TotalTime := -1500, Location := "odd.mp3" }
    else none

/-- A request for the playlists "Rock" and "Jazz", with one track each. -/
def sampleSettings (exportType : Int) : ExportSettings where
  Library := sampleLibrary
  Playlists := [{ Name := "Rock", TrackIDs := [1] }, { Name := "Jazz", TrackIDs := [2] }]
  ExportType := exportType
  OutputPath := "out"
  Extension := "m3u"

/-- A world without files. -/
def emptyWorld : World where
  files := fun _ => none
  openFiles := []
  ticks := 0

/-- A world whose only file is `/work/out/Rock.m3u`, left by an earlier export. -/
def earlierWorld : World where
  files := fun q => if q = "/work/out/Rock.m3u" then some "#EXTM3U\n" else none
  openFiles := []
  ticks := 0

/-! ## Lines of a text -/

/-- The lines of a text: every newline ends a line, and what follows the last
newline, when not empty, is a last line. -/
def linesOf : List Char → List (List Char)
  | [] => []
  | c :: cs =>
    if c = '\n' then [] :: linesOf cs
    else
      match linesOf cs with
      | [] => [[c]]
      | l :: ls => (c :: l) :: ls

/-- The lines of a string, without their newlines. -/
def lines (s : String) : List String := (linesOf s.data).map String.mk

/-- The string `s` holds no newline. -/
def NoNewline (s : String) : Prop := '\n' ∉ s.data

instance (s : String) : Decidable (NoNewline s) := by
  unfold NoNewline; infer_instance

/-- The `#EXTINF` line of a track in an Extended List, without its newline. -/
def extinfLine (track : Track) : String :=
  "#EXTINF:" ++ formatInt (track.TotalTime.tdiv 1000) ++ "," ++ track.Artist ++ " - " ++
    track.Name

/-- The header line of a Simple List, without its newline. -/
def m3uHeaderLine (name now version : String) : String :=
  "# M3U Playlist '" ++ name ++ "' exported " ++ now ++ " by iTunes Export v. " ++ version ++
    " (http://www.ericdaugherty.com/dev/itunesexport/)"

/-- The string `r` is `d` with one leading occurrence of `x` removed if `d`
starts with `x`, and `d` itself otherwise. -/
def StripsLeading (x d r : String) : Prop :=
  d = x ++ r ∨ ((¬ ∃ s, d = x ++ s) ∧ r = d)

/-- The seconds field of an `#EXTINF` entry: what stands between `#EXTINF:` and
the first comma. -/
def secondsField (entry : String) : String :=
  ⟨(entry.data.drop "#EXTINF:".length).takeWhile (fun c => c != ',')⟩

/-- Number of positions of `s` at which the text `pat` starts. -/
def countOcc (pat : List Char) : List Char → Nat
  | [] => 0
  | c :: cs => (if pat.isPrefixOf (c :: cs) then 1 else 0) + countOcc pat cs

/-- Number of occurrences of the text `pat` in the string `s`. -/
def occurrences (pat s : String) : Nat := countOcc pat.data s.data

/-- Every `<seq>` of `s` is matched by a `</seq>` and every `<smil>` by a
`</smil>`: the opening and the closing tags occur equally often. -/
def Balanced (s : String) : Prop :=
  occurrences "<seq>" s = occurrences "</seq>" s ∧
    occurrences "<smil>" s = occurrences "</smil>" s

instance (s : String) : Decidable (Balanced s) := by
  unfold Balanced; infer_instance

/-! ## Definitions for the comparison of formats and for decoding -/

/-- The line of the Zune Sequence header that names the generator. -/
def generatorMetaLine : String :=
  "    <meta name=\"Generator\" content=\"Zune -- 1.3.5728.0\" />\n"

/-- The Simple List header as the specification words it:
`# <playlist-name> Playlist '<name>' exported <local-timestamp> by <product>
v.<version> (<product-url>)` and a newline. -/
def specSimpleListHeader (playlistName name timestamp product version url : String) :
    String :=
  "# " ++ playlistName ++ " Playlist '" ++ name ++ "' exported " ++ timestamp ++ " by " ++
    product ++ " v." ++ version ++ " (" ++ url ++ ")\n"

/-- The byte `+` replaced by a space, any other byte kept. -/
def plusToSpace (c : Char) : Char := if c = '+' then ' ' else c

/-- Pure percent-decoding: `%XY` becomes the byte `XY` and every other byte,
`+` included, is copied. -/
def percentDecode : List Char → List Char
  | [] => []
  | c :: rest =>
    if c = '%' then
      match rest with
      | h :: l :: rest' => Char.ofNat (unhex h * 16 + unhex l) :: percentDecode rest'
      | _ => []
    else c :: percentDecode rest

/-! ## Auxiliary lemmas -/

theorem setFile_same (files : String → Option String) (p c : String) :
    setFile files p c p = some c := by
  simp [setFile]

theorem setFile_other (files : String → Option String) (p c q : String) (h : q ≠ p) :
    setFile files p c q = files q := by
  simp [setFile, h]

theorem setFile_setFile (files : String → Option String) (p c d : String) :
    setFile (setFile files p c) p d = setFile files p d := by
  funext q
  by_cases h : q = p <;> simp [setFile, h]

theorem setFile_of_eq (files : String → Option String) (p c : String) (h : files p = some c) :
    setFile files p c = files := by
  funext q
  by_cases hq : q = p
  · subst hq; simp [setFile, h]
  · simp [setFile, hq]

theorem fileLocation_snd (env : Env) (t : Track) :
    (fileLocation env t).2 = (QueryUnescape t.Location).2 := rfl

theorem selectWriters_supported (env : Env) (t : Int)
    (h : t = M3U ∨ t = EXT ∨ t = WPL ∨ t = ZPL) :
    selectWriters env t =
      some (textWriters env (fun p n => headerOf env t p (env.now n)) (entryOf t)
        (footerOf t)) := by
  rcases h with h | h | h | h <;> subst h <;> rfl

theorem Write_of_ok (env : Env) (f b : String) (w : World)
    (h : env.outcome w.ticks = Outcome.ok) :
    Write env (some f) b w =
      { err := none,
        world := { files := setFile w.files (env.resolve f) (((w.files (env.resolve f)).getD "") ++ b),
                   openFiles := w.openFiles, ticks := w.ticks + 1 } } := by
  simp [Write, h]

theorem Write_of_fail (env : Env) (f b : String) (w : World) (n : Nat) (text : String)
    (h : env.outcome w.ticks = Outcome.fail n text) :
    Write env (some f) b w =
      { err := some (GoError.osError text),
        world := { files := setFile w.files (env.resolve f) (((w.files (env.resolve f)).getD "") ++ takeBytes n b),
                   openFiles := w.openFiles, ticks := w.ticks + 1 } } := by
  simp [Write, h]

theorem Write_eq_writeAll (env : Env) (f b c : String) (w : World) (hc : w.files (env.resolve f) = some c) :
    Write env (some f) b w =
      { err := (writeAll env [b] w.ticks c).err,
        world := { files := setFile w.files (env.resolve f) (writeAll env [b] w.ticks c).content,
                   openFiles := w.openFiles,
                   ticks := (writeAll env [b] w.ticks c).ticks } } := by
  cases ho : env.outcome w.ticks <;> simp [Write, writeAll, ho, hc]

theorem writeAll_append (env : Env) (l₁ l₂ : List String) :
    ∀ (tick : Nat) (content : String),
      writeAll env (l₁ ++ l₂) tick content =
        match (writeAll env l₁ tick content).err with
        | none => writeAll env l₂ (writeAll env l₁ tick content).ticks
            (writeAll env l₁ tick content).content
        | some _ => writeAll env l₁ tick content := by
  induction l₁ with
  | nil => intro tick content; rfl
  | cons s rest ih =>
    intro tick content
    cases ho : env.outcome tick with
    | ok => simp only [List.cons_append, writeAll, ho]; exact ih _ _
    | fail n text => simp [writeAll, ho]

theorem writeTracks_eq_writeAll (env : Env) (E : Track → String → String) (f : String)
    (st : ExportSettings) (p : Playlist) :
    ∀ (tracks : List Track) (w : World) (c : String), w.files (env.resolve f) = some c →
      writeTracks env (fun wr _ _ t l world => Write env wr (E t l) world) (some f) st p
        tracks w =
        { err := (writeAll env ((retainedTracks tracks).map
            (fun t => E t (fileLocation env t).1)) w.ticks c).err,
          world :=
            { files := setFile w.files (env.resolve f) (writeAll env ((retainedTracks tracks).map
                (fun t => E t (fileLocation env t).1)) w.ticks c).content,
              openFiles := w.openFiles,
              ticks := (writeAll env ((retainedTracks tracks).map
                (fun t => E t (fileLocation env t).1)) w.ticks c).ticks } } := by
  intro tracks
  induction tracks with
  | nil =>
    intro w c hc
    simp [writeTracks, retainedTracks, writeAll, setFile_of_eq _ _ _ hc]
  | cons t rest ih =>
    intro w c hc
    cases hq : (QueryUnescape t.Location).2 with
    | some e =>
      have hloc : (fileLocation env t).2 = some e := hq
      have hret : retainedTracks (t :: rest) = retainedTracks rest := by
        simp [retainedTracks, hq]
      simp only [writeTracks, hloc, hret]
      exact ih w c hc
    | none =>
      have hloc : (fileLocation env t).2 = none := hq
      have hret : retainedTracks (t :: rest) = t :: retainedTracks rest := by
        simp [retainedTracks, hq]
      simp only [writeTracks, hloc, hret, List.map_cons]
      cases ho : env.outcome w.ticks with
      | ok =>
        rw [Write_of_ok env f _ w ho]
        simp only [writeAll, ho]
        rw [ih _ (c ++ E t (fileLocation env t).1) (by simp [setFile, hc])]
        simp [setFile_setFile]
      | fail n text =>
        rw [Write_of_fail env f _ w n text ho]
        simp [writeAll, ho, hc]

theorem textWriters_header (env : Env) (H : Playlist → Nat → String)
    (E : Track → String → String) (F : List String) (f : Option String) (st : ExportSettings)
    (p : Playlist) (w : World) :
    (textWriters env H E F).header f st p w = Write env f (H p w.ticks) w := rfl

theorem textWriters_entry (env : Env) (H : Playlist → Nat → String)
    (E : Track → String → String) (F : List String) :
    (textWriters env H E F).entry = fun wr _ _ t l world => Write env wr (E t l) world := rfl

theorem footer_eq_writeAll (env : Env) (t : Int) (h : t = M3U ∨ t = EXT ∨ t = WPL ∨ t = ZPL)
    (f c : String) (st : ExportSettings) (p : Playlist) (w : World) (hc : w.files (env.resolve f) = some c) :
    (textWriters env (fun p n => headerOf env t p (env.now n)) (entryOf t) (footerOf t)).footer
        (some f) st p w =
      { err := (writeAll env (footerOf t) w.ticks c).err,
        world := { files := setFile w.files (env.resolve f) (writeAll env (footerOf t) w.ticks c).content,
                   openFiles := w.openFiles,
                   ticks := (writeAll env (footerOf t) w.ticks c).ticks } } := by
  rcases h with h | h | h | h <;> subst h
  · simp [textWriters, footerOf, M3U, writeAll, setFile_of_eq _ _ _ hc]
  · simp [textWriters, footerOf, M3U, EXT, writeAll, setFile_of_eq _ _ _ hc]
  · simp only [textWriters, footerOf, M3U, EXT, WPL]
    exact Write_eq_writeAll env f _ c w hc
  · simp only [textWriters, footerOf, M3U, EXT, WPL, ZPL]
    exact Write_eq_writeAll env f _ c w hc

theorem exportPlaylist_open_fail (env : Env) (st : ExportSettings) (p : Playlist) (w : World)
    (n : Nat) (text : String) (h : env.outcome w.ticks = Outcome.fail n text) :
    exportPlaylist env st p w =
      { err := some (GoError.osError text), deferred := none,
        world := { files := w.files, openFiles := w.openFiles, ticks := w.ticks + 1 } } := by
  simp [exportPlaylist, OpenFile, h]

theorem exportPlaylist_unsupported (env : Env) (st : ExportSettings) (p : Playlist) (w : World)
    (hopen : env.outcome w.ticks = Outcome.ok)
    (hfmt : ¬ (st.ExportType = M3U ∨ st.ExportType = EXT ∨ st.ExportType = WPL ∨
      st.ExportType = ZPL)) :
    exportPlaylist env st p w =
      { err := some (GoError.errorsNew "Export Type Not Implemented"),
        deferred := some (fileName env st p),
        world := { files := setFile w.files (fileOf env st p) "",
                   openFiles := fileName env st p :: w.openFiles, ticks := w.ticks + 1 } } := by
  simp only [not_or] at hfmt
  simp [exportPlaylist, OpenFile, hopen, selectWriters, hfmt, fileOf]

theorem exportPlaylist_supported (env : Env) (st : ExportSettings) (p : Playlist) (w : World)
    (hopen : env.outcome w.ticks = Outcome.ok)
    (hfmt : st.ExportType = M3U ∨ st.ExportType = EXT ∨ st.ExportType = WPL ∨
      st.ExportType = ZPL) :
    exportPlaylist env st p w =
      { err := (writeAll env (pieces env st.ExportType p (env.now (w.ticks + 1))
          (env.Tracks p st.Library)) (w.ticks + 1) "").err,
        deferred := some (fileName env st p),
        world :=
          { files := setFile w.files (fileOf env st p)
              (writeAll env (pieces env st.ExportType p (env.now (w.ticks + 1))
                (env.Tracks p st.Library)) (w.ticks + 1) "").content,
            openFiles := fileName env st p :: w.openFiles,
            ticks := (writeAll env (pieces env st.ExportType p (env.now (w.ticks + 1))
              (env.Tracks p st.Library)) (w.ticks + 1) "").ticks } } := by
  simp only [exportPlaylist, OpenFile, hopen, selectWriters_supported env _ hfmt,
    textWriters_header, textWriters_entry, pieces, fileOf]
  cases ho : env.outcome (w.ticks + 1) with
  | fail n text =>
    rw [Write_of_fail env _ _ _ n text ho]
    simp [writeAll, ho, setFile_setFile, setFile_same]
  | ok =>
    rw [Write_of_ok env _ _ _ ho]
    simp only [setFile_same, Option.getD_some, setFile_setFile]
    rw [writeTracks_eq_writeAll env _ (fileName env st p) st p _ _ _ (setFile_same _ _ _)]
    simp only [writeAll, ho, setFile_setFile, String.empty_append]
    rw [writeAll_append]
    cases hb : (writeAll env ((retainedTracks (env.Tracks p st.Library)).map
        (fun t => entryOf st.ExportType t (fileLocation env t).1)) (w.ticks + 1 + 1)
        (headerOf env st.ExportType p (env.now (w.ticks + 1)))).err with
    | some e => simp [hb]
    | none =>
      simp only
      rw [footer_eq_writeAll env _ hfmt (fileName env st p) _ st p _ (setFile_same _ _ _)]
      simp [setFile_setFile]

theorem concatAll_append (l₁ l₂ : List String) :
    concatAll (l₁ ++ l₂) = concatAll l₁ ++ concatAll l₂ := by
  induction l₁ with
  | nil => simp [concatAll]
  | cons s rest ih => simp [concatAll, ih, String.append_assoc]

theorem writeAll_ok (env : Env) (l : List String) :
    ∀ (tick : Nat) (content : String),
      (∀ n, tick ≤ n → n < tick + l.length → env.outcome n = Outcome.ok) →
      writeAll env l tick content =
        { err := none, content := content ++ concatAll l, ticks := tick + l.length } := by
  induction l with
  | nil => intro tick content _; simp [writeAll, concatAll]
  | cons s rest ih =>
    intro tick content hok
    have h0 := hok tick (Nat.le_refl _) (by simp)
    simp only [writeAll, h0]
    rw [ih (tick + 1) (content ++ s) (fun n h1 h2 => hok n (by omega) (by simp; omega))]
    simp [concatAll, String.append_assoc]
    omega

theorem digitChar_isDigit (k : Nat) (hk : k < 10) : (Nat.digitChar k).isDigit = true := by
  interval_cases k <;> decide

theorem toDigitsCore_chars (f : Nat) :
    ∀ (n : Nat) (ds : List Char) (c : Char), c ∈ Nat.toDigitsCore 10 f n ds →
      c ∈ ds ∨ c.isDigit = true := by
  induction f with
  | zero => intro n ds c h; left; simpa [Nat.toDigitsCore] using h
  | succ f ih =>
    intro n ds c h
    have hd : ∀ c, c ∈ Nat.digitChar (n % 10) :: ds → c ∈ ds ∨ c.isDigit = true := by
      intro c hc
      rcases List.mem_cons.mp hc with hc | hc
      · right; rw [hc]; exact digitChar_isDigit _ (Nat.mod_lt _ (by decide))
      · left; exact hc
    simp only [Nat.toDigitsCore] at h
    split_ifs at h
    · exact hd c h
    · rcases ih _ _ c h with h' | h'
      · exact hd c h'
      · right; exact h'

theorem repr_chars (n : Nat) (c : Char) (h : c ∈ (Nat.repr n).data) : c.isDigit = true := by
  unfold Nat.repr Nat.toDigits at h
  rcases toDigitsCore_chars _ _ _ c h with h' | h'
  · simp at h'
  · exact h'

/-- Every character `%v` prints for an `int` is a decimal digit or `-`. -/
theorem formatInt_chars (i : Int) (c : Char) (h : c ∈ (formatInt i).data) :
    c.isDigit = true ∨ c = '-' := by
  cases i with
  | ofNat n => left; exact repr_chars n c h
  | negSucc n =>
    simp only [formatInt, String.data_append, List.mem_append] at h
    rcases h with h | h
    · right; simpa using h
    · left; exact repr_chars _ c h

/-! ## Lemmas on a whole run -/

theorem exportPlaylist_frame (env : Env) (st : ExportSettings) (p : Playlist) (w : World)
    (q : FileId) (hq : q ≠ fileOf env st p) :
    (exportPlaylist env st p w).world.files q = w.files q := by
  cases ho : env.outcome w.ticks with
  | fail n text => rw [exportPlaylist_open_fail env st p w n text ho]
  | ok =>
    by_cases hfmt : st.ExportType = M3U ∨ st.ExportType = EXT ∨ st.ExportType = WPL ∨
        st.ExportType = ZPL
    · rw [exportPlaylist_supported env st p w ho hfmt]
      exact setFile_other _ _ _ _ hq
    · rw [exportPlaylist_unsupported env st p w ho hfmt]
      exact setFile_other _ _ _ _ hq

theorem exportLoop_frame (env : Env) (st : ExportSettings) (q : FileId) :
    ∀ (ps : List Playlist) (ds : List (Option String)) (w : World),
      (∀ p ∈ ps, q ≠ fileOf env st p) →
      (exportLoop env st ps ds w).world.files q = w.files q := by
  intro ps
  induction ps with
  | nil => intro ds w _; rfl
  | cons p rest ih =>
    intro ds w h
    have hp := exportPlaylist_frame env st p w q (h p (by simp))
    simp only [exportLoop]
    cases he : (exportPlaylist env st p w).err with
    | some e => simpa using hp
    | none =>
      simp only
      rw [ih _ _ (fun p' hp' => h p' (by simp [hp'])), hp]

theorem runDeferred_files : ∀ (ds : List (Option String)) (w : World),
    (runDeferred ds w).files = w.files := by
  intro ds
  induction ds with
  | nil => intro w; rfl
  | cons d rest ih =>
    intro w
    simp only [runDeferred]
    rw [ih]
    cases d <;> rfl

theorem ExportPlaylists_files (env : Env) (st : ExportSettings) (w : World) :
    (ExportPlaylists env st w).world.files =
      (exportLoop env st st.Playlists [] w).world.files := by
  simp [ExportPlaylists, runDeferred_files]

theorem ExportPlaylists_err (env : Env) (st : ExportSettings) (w : World) :
    (ExportPlaylists env st w).err = (exportLoop env st st.Playlists [] w).err := rfl

theorem exportPlaylist_all_ok (env : Env) (st : ExportSettings) (p : Playlist) (w : World)
    (hfmt : st.ExportType = M3U ∨ st.ExportType = EXT ∨ st.ExportType = WPL ∨
      st.ExportType = ZPL)
    (hok : ∀ n, w.ticks ≤ n → env.outcome n = Outcome.ok) :
    exportPlaylist env st p w =
      { err := none, deferred := some (fileName env st p),
        world :=
          { files := setFile w.files (fileOf env st p)
              (concatAll (pieces env st.ExportType p (env.now (w.ticks + 1))
                (env.Tracks p st.Library))),
            openFiles := fileName env st p :: w.openFiles,
            ticks := w.ticks + 1 + (pieces env st.ExportType p (env.now (w.ticks + 1))
              (env.Tracks p st.Library)).length } } := by
  rw [exportPlaylist_supported env st p w (hok _ (Nat.le_refl _)) hfmt,
    writeAll_ok env _ _ _ (fun n h1 _ => hok n (by omega))]
  simp

theorem exportLoop_all_ok (env : Env) (st : ExportSettings)
    (hfmt : st.ExportType = M3U ∨ st.ExportType = EXT ∨ st.ExportType = WPL ∨
      st.ExportType = ZPL) :
    ∀ (ps : List Playlist) (ds : List (Option String)) (w : World),
      (∀ n, w.ticks ≤ n → env.outcome n = Outcome.ok) →
      (exportLoop env st ps ds w).err = none := by
  intro ps
  induction ps with
  | nil => intro ds w _; rfl
  | cons p rest ih =>
    intro ds w hok
    have hp := exportPlaylist_all_ok env st p w hfmt hok
    simp only [exportLoop, hp]
    exact ih _ _ (fun n hn => hok n (by simp at hn; omega))

theorem writeAll_content_of_success (env : Env) (l : List String) :
    ∀ (tick : Nat) (content : String), (writeAll env l tick content).err = none →
      (writeAll env l tick content).content = content ++ concatAll l := by
  induction l with
  | nil => intro tick content _; simp [writeAll, concatAll]
  | cons s rest ih =>
    intro tick content h
    cases ho : env.outcome tick with
    | ok =>
      simp only [writeAll, ho] at h ⊢
      rw [ih _ _ h]
      simp [concatAll, String.append_assoc]
    | fail n text => simp [writeAll, ho] at h

theorem exportPlaylist_success (env : Env) (st : ExportSettings) (p : Playlist) (w : World)
    (hfmt : st.ExportType = M3U ∨ st.ExportType = EXT ∨ st.ExportType = WPL ∨
      st.ExportType = ZPL)
    (h : (exportPlaylist env st p w).err = none) :
    (exportPlaylist env st p w).world.files =
      setFile w.files (fileOf env st p)
        (concatAll (pieces env st.ExportType p (env.now (w.ticks + 1))
          (env.Tracks p st.Library))) := by
  cases ho : env.outcome w.ticks with
  | fail n text => rw [exportPlaylist_open_fail env st p w n text ho] at h; cases h
  | ok =>
    rw [exportPlaylist_supported env st p w ho hfmt] at h ⊢
    simp only at h ⊢
    rw [writeAll_content_of_success env _ _ _ h]
    simp

theorem exportLoop_success (env : Env) (st : ExportSettings)
    (hfmt : st.ExportType = M3U ∨ st.ExportType = EXT ∨ st.ExportType = WPL ∨
      st.ExportType = ZPL) :
    ∀ (ps : List Playlist) (ds : List (Option String)) (w : World),
      (exportLoop env st ps ds w).err = none →
      (ps.map (fileOf env st)).Nodup → ∀ p ∈ ps, ∃ tick,
        (exportLoop env st ps ds w).world.files (fileOf env st p) =
          some (concatAll (pieces env st.ExportType p (env.now tick)
            (env.Tracks p st.Library))) := by
  intro ps
  induction ps with
  | nil => intro ds w _ _ p hp; exact absurd hp (by simp)
  | cons p rest ih =>
    intro ds w herr hnd p' hp'
    simp only [exportLoop] at herr ⊢
    cases he : (exportPlaylist env st p w).err with
    | some e => simp [he] at herr
    | none =>
      simp only [he] at herr ⊢
      rw [List.map_cons, List.nodup_cons] at hnd
      rcases List.mem_cons.mp hp' with h | h
      · subst h
        refine ⟨w.ticks + 1, ?_⟩
        rw [exportLoop_frame env st _ rest _ _ (fun r hr e => hnd.1 (by
          rw [e]; exact List.mem_map_of_mem _ hr)), exportPlaylist_success env st p' w hfmt he]
        exact setFile_same _ _ _
      · exact ih _ _ herr hnd.2 p' h

theorem exportPlaylist_all_pieces (env : Env) (st : ExportSettings) (p : Playlist) (w : World)
    (hfmt : st.ExportType = M3U ∨ st.ExportType = EXT ∨ st.ExportType = WPL ∨
      st.ExportType = ZPL)
    (hok : ∀ n, w.ticks ≤ n →
      n ≤ w.ticks + (pieces env st.ExportType p (env.now (w.ticks + 1))
        (env.Tracks p st.Library)).length →
      env.outcome n = Outcome.ok) :
    (exportPlaylist env st p w).err = none ∧
    (exportPlaylist env st p w).world.files =
      setFile w.files (fileOf env st p)
        (concatAll (pieces env st.ExportType p (env.now (w.ticks + 1))
          (env.Tracks p st.Library))) := by
  rw [exportPlaylist_supported env st p w (hok _ (Nat.le_refl _) (by omega)) hfmt,
    writeAll_ok env _ _ _ (fun n h1 h2 => hok n (by omega) (by omega))]
  simp

theorem exportPlaylist_supported_of_success (env : Env) (st : ExportSettings) (p : Playlist)
    (w : World) (h : (exportPlaylist env st p w).err = none) :
    st.ExportType = M3U ∨ st.ExportType = EXT ∨ st.ExportType = WPL ∨ st.ExportType = ZPL := by
  cases ho : env.outcome w.ticks with
  | fail n text => rw [exportPlaylist_open_fail env st p w n text ho] at h; cases h
  | ok =>
    by_contra hfmt
    rw [exportPlaylist_unsupported env st p w ho hfmt] at h
    cases h

/-- After a successful loop, the file of a playlist that no later playlist is
written to holds the texts of that playlist and nothing else. -/
theorem exportLoop_last_wins (env : Env) (st : ExportSettings)
    (q : Playlist) (post : List Playlist)
    (hlast : ∀ r ∈ post, fileOf env st r ≠ fileOf env st q) :
    ∀ (pre : List Playlist) (ds : List (Option String)) (w : World),
      (exportLoop env st (pre ++ q :: post) ds w).err = none →
      ∃ tick, (exportLoop env st (pre ++ q :: post) ds w).world.files (fileOf env st q) =
        some (concatAll (pieces env st.ExportType q (env.now tick)
          (env.Tracks q st.Library))) := by
  intro pre
  induction pre with
  | nil =>
    intro ds w herr
    simp only [List.nil_append, exportLoop] at herr ⊢
    cases he : (exportPlaylist env st q w).err with
    | some e => simp [he] at herr
    | none =>
      simp only [he] at herr ⊢
      refine ⟨w.ticks + 1, ?_⟩
      rw [exportLoop_frame env st _ post _ _ (fun r hr e => hlast r hr e.symm),
        exportPlaylist_success env st q w
          (exportPlaylist_supported_of_success env st q w he) he]
      exact setFile_same _ _ _
  | cons a rest ih =>
    intro ds w herr
    simp only [List.cons_append, exportLoop] at herr ⊢
    cases he : (exportPlaylist env st a w).err with
    | some e => simp [he] at herr
    | none =>
      simp only [he] at herr ⊢
      exact ih _ _ herr

/-! ## C1: bytes of a playlist file -/

/-- C1. For each of the four supported formats and every playlist, when the open
and every write of the playlist succeed, the iteration returns no error and the
playlist's file holds exactly the format's header, then the format's entry for
each track whose location decodes, in the order the library returns them and
each with that track's resolved location, then the format's footer; every other
file is as before. -/
theorem exportPlaylist_writes_header_entries_footer (env : Env) (st : ExportSettings)
    (p : Playlist) (w : World)
    (hfmt : st.ExportType = M3U ∨ st.ExportType = EXT ∨ st.ExportType = WPL ∨
      st.ExportType = ZPL)
    (hok : ∀ n, w.ticks ≤ n →
      n ≤ w.ticks + (pieces env st.ExportType p (env.now (w.ticks + 1))
        (env.Tracks p st.Library)).length →
      env.outcome n = Outcome.ok) :
    (exportPlaylist env st p w).err = none ∧
    (exportPlaylist env st p w).world.files =
      setFile w.files (fileOf env st p)
        (headerOf env st.ExportType p (env.now (w.ticks + 1)) ++
          concatAll (((env.Tracks p st.Library).filter
            (fun t => decide ((QueryUnescape t.Location).2 = none))).map
            (fun t => entryOf st.ExportType t (fileLocation env t).1)) ++
          concatAll (footerOf st.ExportType)) := by
  rw [exportPlaylist_supported env st p w (hok _ (Nat.le_refl _) (by omega)) hfmt]
  rw [writeAll_ok env _ _ _ (fun n h1 h2 => hok n (by omega) (by omega))]
  simp [pieces, concatAll, concatAll_append, retainedTracks, String.append_assoc]

/-- Witness for C1: the playlist "Rock" of the sample request, exported as an
Extended List on a host where every call succeeds. -/
theorem exportPlaylist_writes_header_entries_footer_witness :
    (exportPlaylist (sampleEnv false) (sampleSettings EXT)
      { Name := "Rock", TrackIDs := [1, 3, 2] } emptyWorld).err = none ∧
    (exportPlaylist (sampleEnv false) (sampleSettings EXT)
      { Name := "Rock", TrackIDs := [1, 3, 2] } emptyWorld).world.files "/work/out/Rock.m3u" =
      some ("#EXTM3U\n" ++ "#EXTINF:185,Band - Song\n/C:/Music/song.mp3\n" ++
        "#EXTINF:61,Duo - Tune\n/C:/Music/a tune.mp3\n") := by
  have h := exportPlaylist_writes_header_entries_footer (sampleEnv false) (sampleSettings EXT)
    { Name := "Rock", TrackIDs := [1, 3, 2] } emptyWorld (by decide) (fun _ _ _ => rfl)
  refine ⟨h.1, ?_⟩
  rw [h.2]
  decide

/-! ## C2: lines of an Extended List -/

theorem linesOf_line (l : List Char) (h : '\n' ∉ l) (rest : List Char) :
    linesOf (l ++ '\n' :: rest) = l :: linesOf rest := by
  induction l with
  | nil => simp [linesOf]
  | cons c cs ih =>
    have hc : c ≠ '\n' := fun hc => h (by simp [hc])
    have hcs : '\n' ∉ cs := fun hcs => h (by simp [hcs])
    simp [linesOf, hc, ih hcs]

theorem lines_line (s rest : String) (h : NoNewline s) :
    lines (s ++ "\n" ++ rest) = s :: lines rest := by
  unfold lines
  have : (s ++ "\n" ++ rest).data = s.data ++ '\n' :: rest.data := by
    simp [String.data_append]
  rw [this, linesOf_line _ h]
  simp

theorem formatInt_noNewline (i : Int) : NoNewline (formatInt i) := by
  intro h
  rcases formatInt_chars i _ h with h | h
  · exact absurd h (by decide)
  · exact absurd h (by decide)

theorem noNewline_append (a b : String) (ha : NoNewline a) (hb : NoNewline b) :
    NoNewline (a ++ b) := by
  unfold NoNewline at *
  simp [String.data_append, ha, hb]

theorem extinfLine_noNewline (t : Track) (ha : NoNewline t.Artist) (hn : NoNewline t.Name) :
    NoNewline (extinfLine t) := by
  unfold extinfLine
  refine noNewline_append _ _ (noNewline_append _ _ (noNewline_append _ _
    (noNewline_append _ _ (noNewline_append _ _ (by decide) (formatInt_noNewline _))
      (by decide)) ha) (by decide)) hn

theorem lines_ext_body (env : Env) (tracks : List Track)
    (h : ∀ t ∈ tracks, NoNewline t.Artist ∧ NoNewline t.Name ∧
      NoNewline (fileLocation env t).1) :
    lines (concatAll (tracks.map (fun t => extEntryString t (fileLocation env t).1))) =
      tracks.flatMap (fun t => [extinfLine t, (fileLocation env t).1]) := by
  induction tracks with
  | nil => simp [concatAll, lines, linesOf]
  | cons t rest ih =>
    have ht := h t (by simp)
    have hrest := ih (fun t' ht' => h t' (by simp [ht']))
    have e : concatAll ((t :: rest).map (fun t => extEntryString t (fileLocation env t).1)) =
        extinfLine t ++ "\n" ++ ((fileLocation env t).1 ++ "\n" ++
          concatAll (rest.map (fun t => extEntryString t (fileLocation env t).1))) := by
      simp [concatAll, extEntryString, extinfLine, String.append_assoc]
    rw [e, lines_line _ _ (extinfLine_noNewline t ht.1 ht.2.1), lines_line _ _ ht.2.2, hrest]
    simp [List.flatMap_cons]

theorem length_flatMap_pair {α β : Type} (f g : α → β) (l : List α) :
    (l.flatMap (fun t => [f t, g t])).length = 2 * l.length := by
  induction l with
  | nil => rfl
  | cons a rest ih => simp [List.flatMap_cons, ih]; omega

/-- C2 (amended). For a playlist exported as an Extended List, when the open and
every write succeed and the artist, name and resolved location of every retained
track hold no newline, the lines of the file are the header line followed, for
each retained track in playlist order, by its `#EXTINF` line and then its
location line, and nothing else: one line of each kind per retained track. -/
theorem extended_list_lines_per_retained_track (env : Env) (st : ExportSettings)
    (p : Playlist) (w : World) (hfmt : st.ExportType = EXT)
    (hok : ∀ n, w.ticks ≤ n →
      n ≤ w.ticks + (pieces env st.ExportType p (env.now (w.ticks + 1))
        (env.Tracks p st.Library)).length →
      env.outcome n = Outcome.ok)
    (hnl : ∀ t ∈ retainedTracks (env.Tracks p st.Library),
      NoNewline t.Artist ∧ NoNewline t.Name ∧ NoNewline (fileLocation env t).1) :
    ∃ content,
      (exportPlaylist env st p w).world.files (fileOf env st p) = some content ∧
      lines content =
        "#EXTM3U" :: (retainedTracks (env.Tracks p st.Library)).flatMap
          (fun t => [extinfLine t, (fileLocation env t).1]) ∧
      (lines content).length = 1 + 2 * (retainedTracks (env.Tracks p st.Library)).length := by
  have h := exportPlaylist_supported env st p w (hok _ (Nat.le_refl _) (by omega))
    (Or.inr (Or.inl hfmt))
  rw [writeAll_ok env _ _ _ (fun n h1 h2 => hok n (by omega) (by omega))] at h
  have hl : lines ("" ++ concatAll (pieces env st.ExportType p (env.now (w.ticks + 1))
      (env.Tracks p st.Library))) =
      "#EXTM3U" :: (retainedTracks (env.Tracks p st.Library)).flatMap
          (fun t => [extinfLine t, (fileLocation env t).1]) := by
    have e : "" ++ concatAll (pieces env st.ExportType p (env.now (w.ticks + 1))
        (env.Tracks p st.Library)) = "#EXTM3U" ++ "\n" ++
        concatAll ((retainedTracks (env.Tracks p st.Library)).map
          (fun t => extEntryString t (fileLocation env t).1)) := by
      simp only [pieces, hfmt, headerOf, entryOf, footerOf, EXT, M3U, concatAll,
        List.append_nil, extHeaderString]
      simp [String.append_assoc]
    rw [e, lines_line _ _ (by decide), lines_ext_body env _ hnl]
  refine ⟨_, ?_, hl, ?_⟩
  · rw [h]; simp [setFile]
  · rw [hl, List.length_cons, length_flatMap_pair]
    omega

/-- Witness for C2 (amended): a playlist of three tracks, the second of which
is skipped, exported as an Extended List. -/
theorem extended_list_lines_per_retained_track_witness :
    ∃ content,
      (exportPlaylist (sampleEnv false) (sampleSettings EXT)
        { Name := "Rock", TrackIDs := [1, 3, 2] } emptyWorld).world.files "/work/out/Rock.m3u" =
        some content ∧
      lines content =
        ["#EXTM3U", "#EXTINF:185,Band - Song", "/C:/Music/song.mp3",
          "#EXTINF:61,Duo - Tune", "/C:/Music/a tune.mp3"] ∧
      (lines content).length = 1 + 2 * 2 :=
  extended_list_lines_per_retained_track (sampleEnv false) (sampleSettings EXT)
    { Name := "Rock", TrackIDs := [1, 3, 2] } emptyWorld rfl (fun _ _ _ => rfl) (by decide)

/-- Counterexample to C2 as stated: track 4 is retained and its name holds a
newline; the Extended List of a playlist with this single track has two lines
that start with `#EXTINF`, and the first is not followed by the location. -/
theorem extended_list_one_extinf_line_counterexample :
    (retainedTracks ((sampleEnv false).Tracks { Name := "Mix", TrackIDs := [4] }
      sampleLibrary)).length = 1 ∧
    (exportPlaylist (sampleEnv false) (sampleSettings EXT)
      { Name := "Mix", TrackIDs := [4] } emptyWorld).err = none ∧
    (exportPlaylist (sampleEnv false) (sampleSettings EXT)
      { Name := "Mix", TrackIDs := [4] } emptyWorld).world.files "/work/out/Mix.m3u" =
      some "#EXTM3U\n#EXTINF:1,Solo - Two\n#EXTINF:0,lines\nsolo.mp3\n" ∧
    lines "#EXTM3U\n#EXTINF:1,Solo - Two\n#EXTINF:0,lines\nsolo.mp3\n" =
      ["#EXTM3U", "#EXTINF:1,Solo - Two", "#EXTINF:0,lines", "solo.mp3"] ∧
    ((lines "#EXTM3U\n#EXTINF:1,Solo - Two\n#EXTINF:0,lines\nsolo.mp3\n").filter
      (fun l => HasPrefix l "#EXTINF")).length = 2 ∧
    ((lines "#EXTM3U\n#EXTINF:1,Solo - Two\n#EXTINF:0,lines\nsolo.mp3\n").filter
      (fun l => HasPrefix l "#EXTINF")).length ≠
      (retainedTracks ((sampleEnv false).Tracks { Name := "Mix", TrackIDs := [4] }
        sampleLibrary)).length := by
  decide

/-! ## C3: one Simple List file per playlist -/

theorem lines_m3u_body (env : Env) (tracks : List Track)
    (h : ∀ t ∈ tracks, NoNewline (fileLocation env t).1) :
    lines (concatAll (tracks.map (fun t => m3uEntryString (fileLocation env t).1))) =
      tracks.map (fun t => (fileLocation env t).1) := by
  induction tracks with
  | nil => simp [concatAll, lines, linesOf]
  | cons t rest ih =>
    have e : concatAll ((t :: rest).map (fun t => m3uEntryString (fileLocation env t).1)) =
        (fileLocation env t).1 ++ "\n" ++
          concatAll (rest.map (fun t => m3uEntryString (fileLocation env t).1)) := by
      simp [concatAll, m3uEntryString, String.append_assoc]
    rw [e, lines_line _ _ (h t (by simp)), ih (fun t' ht' => h t' (by simp [ht']))]
    simp

theorem m3uHeaderLine_noNewline (name now version : String) (h1 : NoNewline name)
    (h2 : NoNewline now) (h3 : NoNewline version) :
    NoNewline (m3uHeaderLine name now version) := by
  unfold m3uHeaderLine
  refine noNewline_append _ _ (noNewline_append _ _ (noNewline_append _ _
    (noNewline_append _ _ (noNewline_append _ _ (noNewline_append _ _ (by decide) h1)
      (by decide)) h2) (by decide)) h3) (by decide)

theorem lines_m3u_file (env : Env) (p : Playlist) (now : String) (tracks : List Track)
    (h1 : NoNewline p.Name) (h2 : NoNewline now) (h3 : NoNewline env.Version)
    (h : ∀ t ∈ retainedTracks tracks, NoNewline (fileLocation env t).1) :
    lines (concatAll (pieces env M3U p now tracks)) =
      m3uHeaderLine p.Name now env.Version ::
        (retainedTracks tracks).map (fun t => (fileLocation env t).1) := by
  have e : concatAll (pieces env M3U p now tracks) =
      m3uHeaderLine p.Name now env.Version ++ "\n" ++
        concatAll ((retainedTracks tracks).map
          (fun t => m3uEntryString (fileLocation env t).1)) := by
    simp [pieces, headerOf, entryOf, footerOf, M3U, concatAll, m3uHeaderString,
      m3uHeaderLine, String.append_assoc]
  rw [e, lines_line _ _ (m3uHeaderLine_noNewline _ _ _ h1 h2 h3), lines_m3u_body env _ h]

/-- C3 (amended). For every request with format Simple List whose playlists are
written to pairwise distinct files, the paths
`filepath.Join(outputDir, name + "." + extension)` of no two of them naming the
same file on the host, and where the playlist names, the timestamp, the version
and the resolved locations hold no newline: the export succeeds on a host where
every call succeeds, and whenever the export succeeds the file that the path of
each playlist names holds one header line followed by one location line per
track of the playlist whose location decodes, in order, and no file other than
those of the playlists has changed. -/
theorem simple_list_one_file_per_playlist (env : Env) (st : ExportSettings) (w : World)
    (hfmt : st.ExportType = M3U)
    (hfiles : (st.Playlists.map
      (fun p => env.resolve (env.join st.OutputPath (p.Name ++ "." ++ st.Extension)))).Nodup)
    (hver : NoNewline env.Version) (hnow : ∀ n, NoNewline (env.now n))
    (hnl : ∀ p ∈ st.Playlists, NoNewline p.Name ∧
      ∀ t ∈ retainedTracks (env.Tracks p st.Library), NoNewline (fileLocation env t).1) :
    ((∀ n, w.ticks ≤ n → env.outcome n = Outcome.ok) →
      (ExportPlaylists env st w).err = none) ∧
    ((ExportPlaylists env st w).err = none →
      (∀ p ∈ st.Playlists, ∃ content tick,
        (ExportPlaylists env st w).world.files
          (env.resolve (env.join st.OutputPath (p.Name ++ "." ++ st.Extension))) =
          some content ∧
        lines content =
          m3uHeaderLine p.Name (env.now tick) env.Version ::
            (retainedTracks (env.Tracks p st.Library)).map
              (fun t => (fileLocation env t).1)) ∧
      (∀ q, q ∉ st.Playlists.map
          (fun p => env.resolve (env.join st.OutputPath (p.Name ++ "." ++ st.Extension))) →
        (ExportPlaylists env st w).world.files q = w.files q)) := by
  refine ⟨fun hok => exportLoop_all_ok env st (Or.inl hfmt) st.Playlists [] w hok,
    fun herr => ⟨?_, ?_⟩⟩
  · intro p hp
    obtain ⟨tick, ht⟩ :=
      exportLoop_success env st (Or.inl hfmt) st.Playlists [] w herr hfiles p hp
    refine ⟨concatAll (pieces env st.ExportType p (env.now tick) (env.Tracks p st.Library)),
      tick, ?_, ?_⟩
    · rw [ExportPlaylists_files]; exact ht
    · rw [hfmt]
      exact lines_m3u_file env p _ _ (hnl p hp).1 (hnow tick) hver (hnl p hp).2
  · intro q hq
    rw [ExportPlaylists_files]
    exact exportLoop_frame env st q _ _ _ (fun p hp e => hq (by
      rw [e]; exact List.mem_map_of_mem (fileOf env st) hp))

/-- Witness for C3 (amended): the playlists "Rock" and "Jazz" with one track
each and extension "m3u" give `out/Rock.m3u` and `out/Jazz.m3u` in the working
directory `/work`, each a header line and one location line. -/
theorem simple_list_one_file_per_playlist_witness :
    (ExportPlaylists (sampleEnv false) (sampleSettings M3U) emptyWorld).err = none ∧
    (ExportPlaylists (sampleEnv false) (sampleSettings M3U) emptyWorld).world.files
      "/work/out/Rock.m3u" = some ("# M3U Playlist 'Rock' exported 2024-01-02 3:04PM by " ++
        "iTunes Export v. 1.0 (http://www.ericdaugherty.com/dev/itunesexport/)\n" ++
        "/C:/Music/song.mp3\n") ∧
    (ExportPlaylists (sampleEnv false) (sampleSettings M3U) emptyWorld).world.files
      "/work/out/Jazz.m3u" = some ("# M3U Playlist 'Jazz' exported 2024-01-02 3:04PM by " ++
        "iTunes Export v. 1.0 (http://www.ericdaugherty.com/dev/itunesexport/)\n" ++
        "/C:/Music/a tune.mp3\n") ∧
    (ExportPlaylists (sampleEnv false) (sampleSettings M3U) emptyWorld).world.files
      "/work/out/Pop.m3u" = none := by
  have h := simple_list_one_file_per_playlist (sampleEnv false) (sampleSettings M3U)
    emptyWorld rfl (by decide) (by decide)
    (fun _ => (by decide : NoNewline "2024-01-02 3:04PM")) (by decide)
  have herr := h.1 (fun _ _ => rfl)
  refine ⟨herr, by decide, by decide, ?_⟩
  rw [(h.2 herr).2 "/work/out/Pop.m3u" (by decide)]
  rfl

set_option maxRecDepth 20000 in
/-- Counterexample to C3 as stated, on a host where every call succeeds.
(1) A playlist whose only track has an undecodable location is exported
successfully to a file with a header line and no location line.  (2) A track
whose decoded location holds a newline gives two lines after the header.
(3) The distinct names "a" and "./a" are joined to the same path, so two
playlists give one file, which holds the second playlist only.  (4) The names
"a" and "../../work/out/a" are joined to different paths that name the same
file when the working directory is `/work`, with the same result. -/
theorem simple_list_one_file_per_playlist_counterexample :
    ((sampleEnv false).Tracks { Name := "Rock", TrackIDs := [3] } sampleLibrary).length = 1 ∧
    (ExportPlaylists (sampleEnv false)
      { sampleSettings M3U with Playlists := [{ Name := "Rock", TrackIDs := [3] }] }
      emptyWorld).err = none ∧
    ((ExportPlaylists (sampleEnv false)
      { sampleSettings M3U with Playlists := [{ Name := "Rock", TrackIDs := [3] }] }
      emptyWorld).world.files "/work/out/Rock.m3u").map lines =
      some ["# M3U Playlist 'Rock' exported 2024-01-02 3:04PM by iTunes Export v. 1.0 " ++
        "(http://www.ericdaugherty.com/dev/itunesexport/)"] ∧
    (((ExportPlaylists (sampleEnv false)
      { sampleSettings M3U with Playlists := [{ Name := "Rock", TrackIDs := [3] }] }
      emptyWorld).world.files "/work/out/Rock.m3u").map lines).map List.length ≠
      some (1 + ((sampleEnv false).Tracks { Name := "Rock", TrackIDs := [3] }
        sampleLibrary).length) ∧
    ((sampleEnv false).Tracks { Name := "Mix", TrackIDs := [5] } sampleLibrary).length = 1 ∧
    ((ExportPlaylists (sampleEnv false)
      { sampleSettings M3U with Playlists := [{ Name := "Mix", TrackIDs := [5] }] }
      emptyWorld).world.files "/work/out/Mix.m3u").map lines =
      some ["# M3U Playlist 'Mix' exported 2024-01-02 3:04PM by iTunes Export v. 1.0 " ++
        "(http://www.ericdaugherty.com/dev/itunesexport/)", "a", "b.mp3"] ∧
    unixJoin "out" ("a" ++ "." ++ "m3u") = "out/a.m3u" ∧
    unixJoin "out" ("./a" ++ "." ++ "m3u") = "out/a.m3u" ∧
    (ExportPlaylists (sampleEnv false)
      { sampleSettings M3U with
        Playlists := [{ Name := "a", TrackIDs := [1] }, { Name := "./a", TrackIDs := [2] }] }
      emptyWorld).err = none ∧
    ((ExportPlaylists (sampleEnv false)
      { sampleSettings M3U with
        Playlists := [{ Name := "a", TrackIDs := [1] }, { Name := "./a", TrackIDs := [2] }] }
      emptyWorld).world.files "/work/out/a.m3u").map lines =
      some ["# M3U Playlist './a' exported 2024-01-02 3:04PM by iTunes Export v. 1.0 " ++
        "(http://www.ericdaugherty.com/dev/itunesexport/)", "/C:/Music/a tune.mp3"] ∧
    unixJoin "out" ("../../work/out/a" ++ "." ++ "m3u") = "../work/out/a.m3u" ∧
    sampleResolve "out/a.m3u" = "/work/out/a.m3u" ∧
    sampleResolve "../work/out/a.m3u" = "/work/out/a.m3u" ∧
    (ExportPlaylists (sampleEnv false)
      { sampleSettings M3U with
        Playlists := [{ Name := "a", TrackIDs := [1] },
          { Name := "../../work/out/a", TrackIDs := [2] }] }
      emptyWorld).err = none ∧
    ((ExportPlaylists (sampleEnv false)
      { sampleSettings M3U with
        Playlists := [{ Name := "a", TrackIDs := [1] },
          { Name := "../../work/out/a", TrackIDs := [2] }] }
      emptyWorld).world.files "/work/out/a.m3u").map lines =
      some ["# M3U Playlist '../../work/out/a' exported 2024-01-02 3:04PM by " ++
        "iTunes Export v. 1.0 (http://www.ericdaugherty.com/dev/itunesexport/)",
        "/C:/Music/a tune.mp3"] := by
  refine ⟨by decide, by decide, by decide, by decide, by decide, by decide, by decide,
    by decide, by decide, by decide, by decide, by decide, by decide, by decide, by decide⟩

/-! ## C4: a track whose location does not decode is skipped -/

theorem retainedTracks_skip (before after : List Track) (bad : Track)
    (hbad : (QueryUnescape bad.Location).2 ≠ none) :
    retainedTracks (before ++ bad :: after) = retainedTracks (before ++ after) := by
  simp [retainedTracks, List.filter_append, List.filter_cons, hbad]

theorem exportPlaylist_congr (env : Env) (st st' : ExportSettings) (p p' : Playlist)
    (w : World) (hlib : st'.Library = st.Library) (htype : st'.ExportType = st.ExportType)
    (hout : st'.OutputPath = st.OutputPath) (hext : st'.Extension = st.Extension)
    (hname : p'.Name = p.Name)
    (hret : retainedTracks (env.Tracks p' st.Library) =
      retainedTracks (env.Tracks p st.Library)) :
    exportPlaylist env st' p' w = exportPlaylist env st p w := by
  have hfile : fileName env st' p' = fileName env st p := by
    simp [fileName, hout, hext, hname]
  have hfileOf : fileOf env st' p' = fileOf env st p := by
    simp [fileOf, hfile]
  cases ho : env.outcome w.ticks with
  | fail n text =>
    rw [exportPlaylist_open_fail env st' p' w n text ho,
      exportPlaylist_open_fail env st p w n text ho]
  | ok =>
    by_cases hfmt : st.ExportType = M3U ∨ st.ExportType = EXT ∨ st.ExportType = WPL ∨
        st.ExportType = ZPL
    · have hpieces : ∀ now, pieces env st'.ExportType p' now (env.Tracks p' st'.Library) =
          pieces env st.ExportType p now (env.Tracks p st.Library) := by
        intro now
        simp [pieces, headerOf, hname, htype, hlib, hret]
      rw [exportPlaylist_supported env st' p' w ho (by rw [htype]; exact hfmt),
        exportPlaylist_supported env st p w ho hfmt, hfile, hfileOf, hpieces]
    · rw [exportPlaylist_unsupported env st' p' w ho (by rw [htype]; exact hfmt),
        exportPlaylist_unsupported env st p w ho hfmt, hfile, hfileOf]

theorem exportLoop_congr (env : Env) (st st' : ExportSettings)
    (hlib : st'.Library = st.Library) (htype : st'.ExportType = st.ExportType)
    (hout : st'.OutputPath = st.OutputPath) (hext : st'.Extension = st.Extension) :
    ∀ (ps ps' : List Playlist),
      List.Forall₂ (fun p p' => p'.Name = p.Name ∧
        retainedTracks (env.Tracks p' st.Library) = retainedTracks (env.Tracks p st.Library))
        ps ps' →
      ∀ (ds : List (Option String)) (w : World),
        exportLoop env st' ps' ds w = exportLoop env st ps ds w := by
  intro ps ps' h
  induction h with
  | nil => intro ds w; rfl
  | cons hp _ ih =>
    intro ds w
    simp only [exportLoop]
    rw [exportPlaylist_congr env st st' _ _ w hlib htype hout hext hp.1 hp.2]
    split
    · rfl
    · exact ih _ _

theorem unescapeCheck_cons_ne (c : Char) (rest : List Char) (hc : c ≠ '%') :
    unescapeCheck (c :: rest) = unescapeCheck rest := by
  match rest with
  | [] => simp [unescapeCheck, hc]
  | [_] => simp [unescapeCheck, hc]
  | _ :: _ :: _ => simp [unescapeCheck, hc]

theorem unescapeCheck_lone_percent (b : List Char)
    (hb : ¬ ∃ h l r, b = h :: l :: r ∧ ishex h = true ∧ ishex l = true) :
    ∀ (n : Nat) (a : List Char), a.length ≤ n → unescapeCheck (a ++ '%' :: b) ≠ none := by
  intro n
  induction n with
  | zero =>
    intro a ha
    have : a = [] := List.length_eq_zero.mp (by omega)
    subst this
    match b, hb with
    | [], _ => simp [unescapeCheck]
    | [_], _ => simp [unescapeCheck]
    | h :: l :: r, hb =>
      have : ¬ (ishex h = true ∧ ishex l = true) := fun hh => hb ⟨h, l, r, rfl, hh.1, hh.2⟩
      simp [unescapeCheck, this]
  | succ n ih =>
    intro a ha
    match a, ha with
    | [], _ => exact ih [] (by simp)
    | c :: a', ha =>
      by_cases hc : c = '%'
      · subst hc
        match a', ha with
        | [], _ =>
          cases b with
          | nil => simp [unescapeCheck]
          | cons l r =>
            have : ishex '%' = false := by decide
            simp [unescapeCheck, this]
        | [h], _ =>
          have : ishex '%' = false := by decide
          simp [unescapeCheck, this]
        | h :: l :: a'', ha =>
          simp only [List.cons_append, unescapeCheck, if_true]
          split
          · exact ih a'' (by simp at ha; omega)
          · simp
      · rw [List.cons_append, unescapeCheck_cons_ne c _ hc]
        exact ih a' (by simp at ha; omega)

theorem QueryUnescape_lone_percent (x y : String)
    (hy : ¬ ∃ h l r, y.data = h :: l :: r ∧ ishex h = true ∧ ishex l = true) :
    (QueryUnescape (x ++ "%" ++ y)).2 ≠ none := by
  have h := unescapeCheck_lone_percent y.data hy x.data.length x.data (Nat.le_refl _)
  have e : (x ++ "%" ++ y).data = x.data ++ '%' :: y.data := by simp [String.data_append]
  unfold QueryUnescape
  rw [e]
  cases hu : unescapeCheck (x.data ++ '%' :: y.data) with
  | none => exact absurd hu h
  | some e => simp

/-- C4. A track whose stored location does not percent-decode changes nothing
in a run: for every request, format and host, the result of `ExportPlaylists`
(the returned error and every file) is the one obtained when that track is
absent from its playlist, so the track contributes no byte and no error, and
the tracks before and after it are written as without it.  Every location
with a `%` that is not followed by two hexadecimal digits is such a
location. -/
theorem undecodable_location_is_skipped (env : Env) (st : ExportSettings)
    (a b : List Playlist) (p p' : Playlist) (before after : List Track) (bad : Track)
    (w : World)
    (hbad : (QueryUnescape bad.Location).2 ≠ none)
    (hpl : st.Playlists = a ++ p :: b)
    (htracks : env.Tracks p st.Library = before ++ bad :: after)
    (hname : p'.Name = p.Name)
    (htracks' : env.Tracks p' st.Library = before ++ after) :
    ExportPlaylists env st w =
      ExportPlaylists env { st with Playlists := a ++ p' :: b } w ∧
    ∀ x y : String,
      (¬ ∃ h l r, y.data = h :: l :: r ∧ ishex h = true ∧ ishex l = true) →
      (QueryUnescape (x ++ "%" ++ y)).2 ≠ none := by
  refine ⟨?_, QueryUnescape_lone_percent⟩
  have hrel : List.Forall₂ (fun p p' => p'.Name = p.Name ∧
      retainedTracks (env.Tracks p' st.Library) = retainedTracks (env.Tracks p st.Library))
      (a ++ p :: b) (a ++ p' :: b) := by
    refine List.rel_append (List.forall₂_same.mpr (fun _ _ => ⟨rfl, rfl⟩))
      (List.Forall₂.cons ⟨hname, ?_⟩ (List.forall₂_same.mpr (fun _ _ => ⟨rfl, rfl⟩)))
    rw [htracks, htracks', retainedTracks_skip before after bad hbad]
  have h := exportLoop_congr env st { st with Playlists := a ++ p' :: b } rfl rfl rfl rfl
    _ _ hrel [] w
  simp only [ExportPlaylists, hpl]
  rw [h]

set_option maxRecDepth 20000 in
/-- Witness for C4: track 3, whose location is a lone `%`, between tracks 1
and 2 of the playlist "Rock"; the export is the one of the playlist without
it, and the file holds the two other tracks. -/
theorem undecodable_location_is_skipped_witness :
    (QueryUnescape "%").2 = some (GoError.escapeError "%") ∧
    ExportPlaylists (sampleEnv false)
        { sampleSettings WPL with Playlists := [{ Name := "Rock", TrackIDs := [1, 3, 2] }] }
        emptyWorld =
      ExportPlaylists (sampleEnv false)
        { sampleSettings WPL with Playlists := [{ Name := "Rock", TrackIDs := [1, 2] }] }
        emptyWorld ∧
    (ExportPlaylists (sampleEnv false)
        { sampleSettings WPL with Playlists := [{ Name := "Rock", TrackIDs := [1, 3, 2] }] }
        emptyWorld).err = none ∧
    (ExportPlaylists (sampleEnv false)
        { sampleSettings WPL with Playlists := [{ Name := "Rock", TrackIDs := [1, 3, 2] }] }
        emptyWorld).world.files "/work/out/Rock.m3u" =
      some ("<?wpl version=\\\"1.0\\\"?>\n<smil>\n  <head>\n    <author />\n" ++
        "    <title>Rock</title>\n  </head>\n  <body>\n    <seq>\n" ++
        "      <media src=/C:/Music/song.mp3></media>\n" ++
        "      <media src=/C:/Music/a tune.mp3></media>\n" ++
        "    </seq>\n  </body>\n</smil>\n") := by
  refine ⟨by decide, ?_, by decide, by decide⟩
  refine (undecodable_location_is_skipped (sampleEnv false)
    { sampleSettings WPL with Playlists := [{ Name := "Rock", TrackIDs := [1, 3, 2] }] }
    [] [] { Name := "Rock", TrackIDs := [1, 3, 2] } { Name := "Rock", TrackIDs := [1, 2] }
    [{ Name := "Song", Artist := "Band", TotalTime := 185500,
       Location := "file://localhost/C:/Music/song.mp3" }]
    [{ Name := "Tune", Artist := "Duo", TotalTime := 61000,
       Location := "file://localhost/C:/Music/a%20tune.mp3" }]
    { Name := "Bad", Artist := "Nobody", TotalTime := 1000, Location := "%" }
    emptyWorld (by decide) rfl (by decide) rfl (by decide)).1

/-! ## C5: the resolved location -/

theorem HasPrefix_iff (s x : String) : HasPrefix s x = true ↔ ∃ r, s = x ++ r := by
  unfold HasPrefix
  rw [List.isPrefixOf_iff_prefix]
  constructor
  · rintro ⟨t, ht⟩
    exact ⟨⟨t⟩, String.ext (by simp [String.data_append, ht])⟩
  · rintro ⟨r, hr⟩
    exact ⟨r.data, by simp [hr, String.data_append]⟩

theorem TrimPrefix_stripsLeading (d x : String) : StripsLeading x d (TrimPrefix d x) := by
  unfold StripsLeading TrimPrefix
  by_cases h : HasPrefix d x = true
  · left
    obtain ⟨r, hr⟩ := (HasPrefix_iff d x).mp h
    simp only [h, if_true]
    apply String.ext
    simp [hr, String.data_append]
  · right
    simp only [h]
    exact ⟨fun hex => h ((HasPrefix_iff d x).mpr hex), by simp⟩

/-- C5. For every stored location that percent-decodes to `d`: without Windows
handling the resolved location is `d` with one leading `file://localhost`
removed if present, and nothing else removed; with Windows handling it is that
same string with one leading `/` removed if present, and no more than one.
This is the string the loop over the tracks hands to the entry writer. -/
theorem resolved_location (env : Env) (track : Track) (d : String)
    (hd : QueryUnescape track.Location = (d, none)) :
    StripsLeading "file://localhost" d
      (fileLocation { env with isWindows := false } track).1 ∧
    StripsLeading "/" (fileLocation { env with isWindows := false } track).1
      (fileLocation { env with isWindows := true } track).1 ∧
    ∀ (entry : trackWriter) (file : Option String) (st : ExportSettings) (p : Playlist)
      (rest : List Track) (w : World),
      writeTracks env entry file st p (track :: rest) w =
        match (entry file st p track (fileLocation env track).1 w).err with
        | some err =>
          Result.mk (some err) (entry file st p track (fileLocation env track).1 w).world
        | none =>
          writeTracks env entry file st p rest
            (entry file st p track (fileLocation env track).1 w).world := by
  refine ⟨?_, ?_, ?_⟩
  · simp only [fileLocation, hd]
    exact TrimPrefix_stripsLeading _ _
  · simp only [fileLocation, hd]
    exact TrimPrefix_stripsLeading _ _
  · intro entry file st p rest w
    have h2 : (fileLocation env track).2 = none := by simp [fileLocation, hd]
    simp only [writeTracks, h2]

/-- Witness for C5: `file://localhost/C:/Music/song.mp3` resolves to
`C:/Music/song.mp3` with Windows handling and to `/C:/Music/song.mp3`
without. -/
theorem resolved_location_witness :
    sampleTrack.Location = "file://localhost/C:/Music/song.mp3" ∧
    (fileLocation (sampleEnv true) sampleTrack).1 = "C:/Music/song.mp3" ∧
    (fileLocation (sampleEnv false) sampleTrack).1 = "/C:/Music/song.mp3" ∧
    StripsLeading "file://localhost" "file://localhost/C:/Music/song.mp3"
      "/C:/Music/song.mp3" ∧
    StripsLeading "/" "/C:/Music/song.mp3" "C:/Music/song.mp3" := by
  have h := resolved_location (sampleEnv true) sampleTrack
    "file://localhost/C:/Music/song.mp3" (by decide)
  exact ⟨rfl, by decide, by decide, h.1, h.2.1⟩

/-! ## C6: format resolution -/

theorem writeAll_err_os (env : Env) (l : List String) :
    ∀ (tick : Nat) (content : String) (e : GoError),
      (writeAll env l tick content).err = some e → ∃ text, e = GoError.osError text := by
  induction l with
  | nil => intro tick content e h; simp [writeAll] at h
  | cons s rest ih =>
    intro tick content e h
    cases ho : env.outcome tick with
    | ok => simp only [writeAll, ho] at h; exact ih _ _ _ h
    | fail n text =>
      simp only [writeAll, ho, Option.some.injEq] at h
      exact ⟨text, h.symm⟩

theorem exportPlaylist_err_os (env : Env) (st : ExportSettings) (p : Playlist) (w : World)
    (hfmt : st.ExportType = M3U ∨ st.ExportType = EXT ∨ st.ExportType = WPL ∨
      st.ExportType = ZPL)
    (e : GoError) (h : (exportPlaylist env st p w).err = some e) :
    ∃ text, e = GoError.osError text := by
  cases ho : env.outcome w.ticks with
  | fail n text =>
    rw [exportPlaylist_open_fail env st p w n text ho] at h
    simp only [Option.some.injEq] at h
    exact ⟨text, h.symm⟩
  | ok =>
    rw [exportPlaylist_supported env st p w ho hfmt] at h
    exact writeAll_err_os env _ _ _ e h

theorem exportLoop_err_os (env : Env) (st : ExportSettings)
    (hfmt : st.ExportType = M3U ∨ st.ExportType = EXT ∨ st.ExportType = WPL ∨
      st.ExportType = ZPL) :
    ∀ (ps : List Playlist) (ds : List (Option String)) (w : World) (e : GoError),
      (exportLoop env st ps ds w).err = some e → ∃ text, e = GoError.osError text := by
  intro ps
  induction ps with
  | nil => intro ds w e h; simp [exportLoop] at h
  | cons p rest ih =>
    intro ds w e h
    simp only [exportLoop] at h
    cases he : (exportPlaylist env st p w).err with
    | some e' =>
      simp only [he, Option.some.injEq] at h
      subst h
      exact exportPlaylist_err_os env st p w hfmt e' he
    | none =>
      simp only [he] at h
      exact ih _ _ e h

/-- C6 (amended). The four format identifiers are 0, 1, 2 and 3; for each of
them the `switch` of `ExportPlaylists` selects a writer triple and no run
returns the error `Export Type Not Implemented`.  For every other integer no
triple is selected, and the export of a request with at least one playlist
fails: with `Export Type Not Implemented` when the file of the first playlist
opens, and with the error of the open when it does not. -/
theorem format_resolution (env : Env) :
    (M3U = 0 ∧ EXT = 1 ∧ WPL = 2 ∧ ZPL = 3) ∧
    (∀ t : Int, (t = 0 ∨ t = 1 ∨ t = 2 ∨ t = 3) →
      (selectWriters env t).isSome = true ∧
      ∀ (st : ExportSettings) (w : World), st.ExportType = t →
        (ExportPlaylists env st w).err ≠
          some (GoError.errorsNew "Export Type Not Implemented")) ∧
    (∀ t : Int, ¬ (t = 0 ∨ t = 1 ∨ t = 2 ∨ t = 3) →
      (selectWriters env t).isSome = false ∧
      ∀ (st : ExportSettings) (w : World) (p : Playlist) (rest : List Playlist),
        st.ExportType = t → st.Playlists = p :: rest →
        (env.outcome w.ticks = Outcome.ok →
          (ExportPlaylists env st w).err =
            some (GoError.errorsNew "Export Type Not Implemented")) ∧
        (∀ n text, env.outcome w.ticks = Outcome.fail n text →
          (ExportPlaylists env st w).err = some (GoError.osError text))) := by
  refine ⟨⟨rfl, rfl, rfl, rfl⟩, ?_, ?_⟩
  · intro t ht
    have hs : t = M3U ∨ t = EXT ∨ t = WPL ∨ t = ZPL := ht
    refine ⟨by rw [selectWriters_supported env t hs]; rfl, ?_⟩
    intro st w hst herr
    obtain ⟨text, h⟩ := exportLoop_err_os env st (by rw [hst]; exact hs) _ _ _ _ herr
    cases h
  · intro t ht
    have hs : ¬ (t = M3U ∨ t = EXT ∨ t = WPL ∨ t = ZPL) := ht
    refine ⟨?_, ?_⟩
    · simp only [not_or] at hs
      simp [selectWriters, hs]
    · intro st w p rest hst hpl
      rw [ExportPlaylists_err, hpl]
      refine ⟨fun ho => ?_, fun n text ho => ?_⟩
      · simp [exportLoop, exportPlaylist_unsupported env st p w ho (by rw [hst]; exact hs)]
      · simp [exportLoop, exportPlaylist_open_fail env st p w n text ho]

/-- Witness for C6 (amended): the sample request with the identifier 7, on a
host where every call succeeds and on one where the first open fails, and with
the identifier 2. -/
theorem format_resolution_witness :
    (ExportPlaylists (sampleEnv false) (sampleSettings 7) emptyWorld).err =
      some (GoError.errorsNew "Export Type Not Implemented") ∧
    (ExportPlaylists (failingEnv 0 0) (sampleSettings 7) emptyWorld).err =
      some (GoError.osError "permission denied") ∧
    (ExportPlaylists (failingEnv 3 0) (sampleSettings 2) emptyWorld).err ≠
      some (GoError.errorsNew "Export Type Not Implemented") :=
  ⟨((format_resolution (sampleEnv false)).2.2 7 (by decide)).2 (sampleSettings 7) emptyWorld
      { Name := "Rock", TrackIDs := [1] } [{ Name := "Jazz", TrackIDs := [2] }] rfl rfl
      |>.1 rfl,
    ((format_resolution (failingEnv 0 0)).2.2 7 (by decide)).2 (sampleSettings 7) emptyWorld
      { Name := "Rock", TrackIDs := [1] } [{ Name := "Jazz", TrackIDs := [2] }] rfl rfl
      |>.2 0 "permission denied" rfl,
    ((format_resolution (failingEnv 3 0)).2.1 2 (by decide)).2 (sampleSettings 2) emptyWorld
      rfl⟩

/-- Counterexample to C6 as stated: the identifier 7 is not supported and the
request has two playlists, yet on a host where the first open fails the export
returns the error of the open, not `Export Type Not Implemented`. -/
theorem format_resolution_counterexample :
    (sampleSettings 7).ExportType = 7 ∧
    (sampleSettings 7).Playlists.length = 2 ∧
    (ExportPlaylists (failingEnv 0 0) (sampleSettings 7) emptyWorld).err =
      some (GoError.osError "permission denied") ∧
    (ExportPlaylists (failingEnv 0 0) (sampleSettings 7) emptyWorld).err ≠
      some (GoError.errorsNew "Export Type Not Implemented") := by
  decide

/-! ## C7: the first error ends the run -/

theorem exportLoop_deferred_irrelevant (env : Env) (st : ExportSettings) :
    ∀ (ps : List Playlist) (ds ds' : List (Option String)) (w : World),
      (exportLoop env st ps ds w).err = (exportLoop env st ps ds' w).err ∧
      (exportLoop env st ps ds w).world = (exportLoop env st ps ds' w).world := by
  intro ps
  induction ps with
  | nil => intro ds ds' w; exact ⟨rfl, rfl⟩
  | cons p rest ih =>
    intro ds ds' w
    simp only [exportLoop]
    cases he : (exportPlaylist env st p w).err with
    | some e => exact ⟨rfl, rfl⟩
    | none => exact ih _ _ _

theorem exportLoop_stops (env : Env) (st : ExportSettings) (p : Playlist)
    (post : List Playlist) (e : GoError) :
    ∀ (pre : List Playlist) (ds : List (Option String)) (w : World),
      (exportLoop env st pre ds w).err = none →
      (exportPlaylist env st p (exportLoop env st pre ds w).world).err = some e →
      (exportLoop env st (pre ++ p :: post) ds w).err = some e ∧
      (exportLoop env st (pre ++ p :: post) ds w).world =
        (exportPlaylist env st p (exportLoop env st pre ds w).world).world := by
  intro pre
  induction pre with
  | nil =>
    intro ds w _ hp
    simp only [exportLoop] at hp
    simp [exportLoop, hp]
  | cons a rest ih =>
    intro ds w hpre hp
    simp only [exportLoop, List.cons_append] at hpre hp ⊢
    cases he : (exportPlaylist env st a w).err with
    | some e' => simp [he] at hpre
    | none =>
      simp only [he] at hpre hp ⊢
      exact ih _ _ hpre hp

theorem writeAll_fail_at (env : Env) (l : List String) :
    ∀ (tick : Nat) (content : String) (j n : Nat) (text : String),
      j < l.length →
      (∀ i, i < j → env.outcome (tick + i) = Outcome.ok) →
      env.outcome (tick + j) = Outcome.fail n text →
      writeAll env l tick content =
        { err := some (GoError.osError text),
          content := content ++ concatAll (l.take j) ++ takeBytes n (l.getD j ""),
          ticks := tick + j + 1 } := by
  induction l with
  | nil => intro tick content j n text hj; simp at hj
  | cons s rest ih =>
    intro tick content j n text hj hok hfail
    cases j with
    | zero =>
      have h0 : env.outcome tick = Outcome.fail n text := by simpa using hfail
      simp [writeAll, h0, concatAll]
    | succ j =>
      have h0 : env.outcome tick = Outcome.ok := by simpa using hok 0 (by omega)
      simp only [writeAll, h0]
      rw [ih (tick + 1) (content ++ s) j n text (by simpa using hj)
        (fun i hi => by have := hok (i + 1) (by omega); rwa [← Nat.add_assoc, Nat.add_right_comm] at this)
        (by rwa [← Nat.add_assoc, Nat.add_right_comm] at hfail)]
      simp [concatAll, String.append_assoc]
      omega

/-- C7 (amended). Let the playlists before playlist `p` have been exported
without error, `wk` being the world at that point.  Whatever error the
iteration of `p` ends with is what `ExportPlaylists` returns, and the files are
left as that iteration leaves them: no playlist after `p` is opened or written.
If the open of `p` fails, its error is returned and no file has changed since
`wk`.  If, for a supported format, write number `j` of `p` fails (the header
being number 0, then the entries, then the footer), its error is returned and
the file holds exactly the `j` texts written before and the bytes the failing
write put: no later piece is written.  In every case the files other than the
one `p` is written to hold what they held at `wk`; so an earlier playlist keeps
its complete output in its file when neither `p` nor a playlist between them
is written to that same file. -/
theorem first_error_aborts (env : Env) (st : ExportSettings) (w wk : World)
    (pre post : List Playlist) (p : Playlist)
    (hpl : st.Playlists = pre ++ p :: post)
    (hpre : (exportLoop env st pre [] w).err = none)
    (hwk : wk = (exportLoop env st pre [] w).world) :
    (∀ e, (exportPlaylist env st p wk).err = some e →
      (ExportPlaylists env st w).err = some e ∧
      (ExportPlaylists env st w).world.files = (exportPlaylist env st p wk).world.files ∧
      (∀ q : FileId, q ≠ fileOf env st p →
        (ExportPlaylists env st w).world.files q = wk.files q) ∧
      ∀ (pre₁ pre₂ : List Playlist) (j : Playlist), pre = pre₁ ++ j :: pre₂ →
        (∀ r ∈ pre₂, fileOf env st r ≠ fileOf env st j) →
        fileOf env st p ≠ fileOf env st j →
        ∃ tick, (ExportPlaylists env st w).world.files (fileOf env st j) =
          some (concatAll (pieces env st.ExportType j (env.now tick)
            (env.Tracks j st.Library)))) ∧
    (∀ n text, env.outcome wk.ticks = Outcome.fail n text →
      (ExportPlaylists env st w).err = some (GoError.osError text) ∧
      (ExportPlaylists env st w).world.files = wk.files) ∧
    ((st.ExportType = M3U ∨ st.ExportType = EXT ∨ st.ExportType = WPL ∨
        st.ExportType = ZPL) →
      env.outcome wk.ticks = Outcome.ok →
      ∀ j n text,
        j < (pieces env st.ExportType p (env.now (wk.ticks + 1))
          (env.Tracks p st.Library)).length →
        (∀ i, i < j → env.outcome (wk.ticks + 1 + i) = Outcome.ok) →
        env.outcome (wk.ticks + 1 + j) = Outcome.fail n text →
        (ExportPlaylists env st w).err = some (GoError.osError text) ∧
        (ExportPlaylists env st w).world.files (fileOf env st p) =
          some (concatAll ((pieces env st.ExportType p (env.now (wk.ticks + 1))
              (env.Tracks p st.Library)).take j) ++
            takeBytes n ((pieces env st.ExportType p (env.now (wk.ticks + 1))
              (env.Tracks p st.Library)).getD j ""))) := by
  have key : ∀ e, (exportPlaylist env st p wk).err = some e →
      (ExportPlaylists env st w).err = some e ∧
      (ExportPlaylists env st w).world.files = (exportPlaylist env st p wk).world.files := by
    intro e he
    have h := exportLoop_stops env st p post e pre [] w hpre (by rw [← hwk]; exact he)
    rw [ExportPlaylists_err, ExportPlaylists_files, hpl, h.1, h.2, ← hwk]
    exact ⟨rfl, rfl⟩
  refine ⟨?_, ?_, ?_⟩
  · intro e he
    refine ⟨(key e he).1, (key e he).2, ?_, ?_⟩
    · intro q hq
      rw [(key e he).2]
      exact exportPlaylist_frame env st p wk q hq
    · intro pre₁ pre₂ j hj hlast hpj
      rw [(key e he).2, exportPlaylist_frame env st p wk _ (Ne.symm hpj), hwk]
      rw [hj] at hpre ⊢
      exact exportLoop_last_wins env st j pre₂ hlast pre₁ [] w hpre
  · intro n text ho
    have he : (exportPlaylist env st p wk).err = some (GoError.osError text) := by
      rw [exportPlaylist_open_fail env st p wk n text ho]
    refine ⟨(key _ he).1, ?_⟩
    rw [(key _ he).2, exportPlaylist_open_fail env st p wk n text ho]
  · intro hfmt ho j n text hj hok hfail
    have hs := exportPlaylist_supported env st p wk ho hfmt
    rw [writeAll_fail_at env _ (wk.ticks + 1) "" j n text hj hok hfail] at hs
    have he : (exportPlaylist env st p wk).err = some (GoError.osError text) := by
      rw [hs]
    refine ⟨(key _ he).1, ?_⟩
    rw [(key _ he).2, hs]
    simp [setFile]

set_option maxRecDepth 20000 in
/-- Witness for C7 (amended): three playlists as Simple Lists on a host whose
call number 5, the entry write of the second playlist, fails after 4 bytes.
The error is returned, the second file holds its header and these 4 bytes, the
first file is complete and the third is never created. -/
theorem first_error_aborts_witness :
    (ExportPlaylists (failingEnv 5 4)
      { sampleSettings M3U with
        Playlists := [{ Name := "Rock", TrackIDs := [1] }, { Name := "Jazz", TrackIDs := [2] },
          { Name := "Pop", TrackIDs := [1, 2] }] } emptyWorld).err =
      some (GoError.osError "permission denied") ∧
    (ExportPlaylists (failingEnv 5 4)
      { sampleSettings M3U with
        Playlists := [{ Name := "Rock", TrackIDs := [1] }, { Name := "Jazz", TrackIDs := [2] },
          { Name := "Pop", TrackIDs := [1, 2] }] } emptyWorld).world.files "/work/out/Jazz.m3u" =
      some ("# M3U Playlist 'Jazz' exported 2024-01-02 3:04PM by iTunes Export v. 1.0 " ++
        "(http://www.ericdaugherty.com/dev/itunesexport/)\n" ++ "/C:/") ∧
    (ExportPlaylists (failingEnv 5 4)
      { sampleSettings M3U with
        Playlists := [{ Name := "Rock", TrackIDs := [1] }, { Name := "Jazz", TrackIDs := [2] },
          { Name := "Pop", TrackIDs := [1, 2] }] } emptyWorld).world.files "/work/out/Rock.m3u" =
      some ("# M3U Playlist 'Rock' exported 2024-01-02 3:04PM by iTunes Export v. 1.0 " ++
        "(http://www.ericdaugherty.com/dev/itunesexport/)\n" ++ "/C:/Music/song.mp3\n") ∧
    (ExportPlaylists (failingEnv 5 4)
      { sampleSettings M3U with
        Playlists := [{ Name := "Rock", TrackIDs := [1] }, { Name := "Jazz", TrackIDs := [2] },
          { Name := "Pop", TrackIDs := [1, 2] }] } emptyWorld).world.files "/work/out/Pop.m3u" =
      none := by
  have h := first_error_aborts (failingEnv 5 4)
    { sampleSettings M3U with
      Playlists := [{ Name := "Rock", TrackIDs := [1] }, { Name := "Jazz", TrackIDs := [2] },
        { Name := "Pop", TrackIDs := [1, 2] }] } emptyWorld _
    [{ Name := "Rock", TrackIDs := [1] }] [{ Name := "Pop", TrackIDs := [1, 2] }]
    { Name := "Jazz", TrackIDs := [2] } rfl (by decide) rfl
  have h3 := h.2.2 (by decide) (by decide) 1 4 "permission denied" (by decide) (by decide)
    (by decide)
  exact ⟨h3.1, by decide, by decide, by decide⟩

set_option maxRecDepth 20000 in
/-- Counterexample to C7 as stated: two playlists named "Rock" as Simple Lists
on a host whose call number 4, the header write of the second playlist, fails
with nothing written.  After the first playlist the file holds its complete
output; the run returns the error and leaves that file empty, so the file of
the playlist before the failing one has not kept its output.  Likewise for the
playlists "Rock", "Rock" and "Jazz" on a host whose call number 6, the open of
"Jazz", fails: the file of the first playlist holds the output of the second
one, not its own. -/
theorem first_error_aborts_counterexample :
    (exportLoop (failingEnv 4 0) (sampleSettings M3U) [{ Name := "Rock", TrackIDs := [1] }]
      [] emptyWorld).err = none ∧
    (exportLoop (failingEnv 4 0) (sampleSettings M3U) [{ Name := "Rock", TrackIDs := [1] }]
      [] emptyWorld).world.files "/work/out/Rock.m3u" =
      some ("# M3U Playlist 'Rock' exported 2024-01-02 3:04PM by iTunes Export v. 1.0 " ++
        "(http://www.ericdaugherty.com/dev/itunesexport/)\n" ++ "/C:/Music/song.mp3\n") ∧
    (ExportPlaylists (failingEnv 4 0)
      { sampleSettings M3U with
        Playlists := [{ Name := "Rock", TrackIDs := [1] }, { Name := "Rock", TrackIDs := [2] }] }
      emptyWorld).err = some (GoError.osError "permission denied") ∧
    (ExportPlaylists (failingEnv 4 0)
      { sampleSettings M3U with
        Playlists := [{ Name := "Rock", TrackIDs := [1] }, { Name := "Rock", TrackIDs := [2] }] }
      emptyWorld).world.files "/work/out/Rock.m3u" = some "" ∧
    (ExportPlaylists (failingEnv 4 0)
      { sampleSettings M3U with
        Playlists := [{ Name := "Rock", TrackIDs := [1] }, { Name := "Rock", TrackIDs := [2] }] }
      emptyWorld).world.files "/work/out/Rock.m3u" ≠
      (exportLoop (failingEnv 4 0) (sampleSettings M3U) [{ Name := "Rock", TrackIDs := [1] }]
        [] emptyWorld).world.files "/work/out/Rock.m3u" ∧
    (exportLoop (failingEnv 6 0) (sampleSettings M3U)
      [{ Name := "Rock", TrackIDs := [1] }, { Name := "Rock", TrackIDs := [2] }]
      [] emptyWorld).err = none ∧
    (ExportPlaylists (failingEnv 6 0)
      { sampleSettings M3U with
        Playlists := [{ Name := "Rock", TrackIDs := [1] }, { Name := "Rock", TrackIDs := [2] },
          { Name := "Jazz", TrackIDs := [2] }] } emptyWorld).err =
      some (GoError.osError "permission denied") ∧
    (ExportPlaylists (failingEnv 6 0)
      { sampleSettings M3U with
        Playlists := [{ Name := "Rock", TrackIDs := [1] }, { Name := "Rock", TrackIDs := [2] },
          { Name := "Jazz", TrackIDs := [2] }] } emptyWorld).world.files "/work/out/Rock.m3u" =
      some ("# M3U Playlist 'Rock' exported 2024-01-02 3:04PM by iTunes Export v. 1.0 " ++
        "(http://www.ericdaugherty.com/dev/itunesexport/)\n" ++ "/C:/Music/a tune.mp3\n") ∧
    (ExportPlaylists (failingEnv 6 0)
      { sampleSettings M3U with
        Playlists := [{ Name := "Rock", TrackIDs := [1] }, { Name := "Rock", TrackIDs := [2] },
          { Name := "Jazz", TrackIDs := [2] }] } emptyWorld).world.files "/work/out/Rock.m3u" ≠
      some ("# M3U Playlist 'Rock' exported 2024-01-02 3:04PM by iTunes Export v. 1.0 " ++
        "(http://www.ericdaugherty.com/dev/itunesexport/)\n" ++ "/C:/Music/song.mp3\n") ∧
    (ExportPlaylists (failingEnv 6 0)
      { sampleSettings M3U with
        Playlists := [{ Name := "Rock", TrackIDs := [1] }, { Name := "Rock", TrackIDs := [2] },
          { Name := "Jazz", TrackIDs := [2] }] } emptyWorld).world.files "/work/out/Jazz.m3u" =
      none := by
  refine ⟨by decide, by decide, by decide, by decide, by decide, by decide, by decide,
    by decide, by decide, by decide⟩

/-! ## C8: an unsupported format is found after the open -/

/-- C8 (amended). For every request whose `ExportType` is none of the four known
identifiers and that has at least one playlist, the file of the first playlist
is opened before the format is examined.  When the open succeeds the call
returns `Export Type Not Implemented`, the file that
`filepath.Join(outputDir, name + "." + extension)` names for the first playlist
has been created or truncated and is empty, nothing having been written to it, and
every other file is as before.  When the open fails the call returns the error
of the open and no file has changed. -/
theorem unsupported_format_after_open (env : Env) (st : ExportSettings) (w : World)
    (p : Playlist) (rest : List Playlist)
    (hfmt : ¬ (st.ExportType = M3U ∨ st.ExportType = EXT ∨ st.ExportType = WPL ∨
      st.ExportType = ZPL))
    (hpl : st.Playlists = p :: rest) :
    (env.outcome w.ticks = Outcome.ok →
      (ExportPlaylists env st w).err =
        some (GoError.errorsNew "Export Type Not Implemented") ∧
      (ExportPlaylists env st w).world.files =
        setFile w.files
          (env.resolve (env.join st.OutputPath (p.Name ++ "." ++ st.Extension))) "") ∧
    (∀ n text, env.outcome w.ticks = Outcome.fail n text →
      (ExportPlaylists env st w).err = some (GoError.osError text) ∧
      (ExportPlaylists env st w).world.files = w.files) := by
  refine ⟨fun ho => ?_, fun n text ho => ?_⟩
  · rw [ExportPlaylists_err, ExportPlaylists_files, hpl]
    simp [exportLoop, exportPlaylist_unsupported env st p w ho hfmt, fileOf, fileName]
  · rw [ExportPlaylists_err, ExportPlaylists_files, hpl]
    simp [exportLoop, exportPlaylist_open_fail env st p w n text ho]

/-- Witness for C8 (amended): the sample request with the identifier 7 in a
world where `out/Rock.m3u` exists; the file is left empty. -/
theorem unsupported_format_after_open_witness :
    earlierWorld.files "/work/out/Rock.m3u" = some "#EXTM3U\n" ∧
    (ExportPlaylists (sampleEnv false) (sampleSettings 7) earlierWorld).err =
      some (GoError.errorsNew "Export Type Not Implemented") ∧
    (ExportPlaylists (sampleEnv false) (sampleSettings 7) earlierWorld).world.files =
      setFile earlierWorld.files "/work/out/Rock.m3u" "" :=
  ⟨by decide,
    (unsupported_format_after_open (sampleEnv false) (sampleSettings 7) earlierWorld
      { Name := "Rock", TrackIDs := [1] } [{ Name := "Jazz", TrackIDs := [2] }]
      (by decide) rfl).1 rfl⟩

/-- Counterexample to C8 as stated: with the unsupported identifier 7 the call
returns `Export Type Not Implemented`, yet the file of the first playlist is
created when it did not exist, and truncated when it did. -/
theorem unsupported_format_touches_file_counterexample :
    (ExportPlaylists (sampleEnv false) (sampleSettings 7) emptyWorld).err =
      some (GoError.errorsNew "Export Type Not Implemented") ∧
    emptyWorld.files "/work/out/Rock.m3u" = none ∧
    (ExportPlaylists (sampleEnv false) (sampleSettings 7) emptyWorld).world.files
      "/work/out/Rock.m3u" = some "" ∧
    earlierWorld.files "/work/out/Rock.m3u" = some "#EXTM3U\n" ∧
    (ExportPlaylists (sampleEnv false) (sampleSettings 7) earlierWorld).world.files
      "/work/out/Rock.m3u" = some "" ∧
    (ExportPlaylists (sampleEnv false) (sampleSettings 7) emptyWorld).world.files ≠
      emptyWorld.files ∧
    (ExportPlaylists (sampleEnv false) (sampleSettings 7) earlierWorld).world.files ≠
      earlierWorld.files := by
  refine ⟨by decide, by decide, by decide, by decide, by decide, ?_, ?_⟩
  · intro h
    exact absurd (congrFun h "/work/out/Rock.m3u") (by decide)
  · intro h
    exact absurd (congrFun h "/work/out/Rock.m3u") (by decide)

/-! ## C9: the seconds field of an Extended List entry -/

theorem takeWhile_until_comma (l rest : List Char) (h : ∀ c ∈ l, c ≠ ',') :
    (l ++ ',' :: rest).takeWhile (fun c => c != ',') = l := by
  induction l with
  | nil => simp
  | cons a t ih =>
    have ha : a ≠ ',' := h a (by simp)
    simp [List.takeWhile_cons, ha, ih (fun c hc => h c (by simp [hc]))]

theorem secondsField_extEntryString (track : Track) (loc : String) :
    secondsField (extEntryString track loc) = formatInt (track.TotalTime.tdiv 1000) := by
  have hc : ∀ c ∈ (formatInt (track.TotalTime.tdiv 1000)).data, c ≠ ',' := by
    intro c hc e
    subst e
    rcases formatInt_chars _ _ hc with h | h
    · exact absurd h (by decide)
    · exact absurd h (by decide)
  have e : (extEntryString track loc).data =
      "#EXTINF:".data ++ ((formatInt (track.TotalTime.tdiv 1000)).data ++
        ',' :: (track.Artist ++ " - " ++ track.Name ++ "\n" ++ loc ++ "\n").data) := by
    simp [extEntryString, String.data_append]
  apply String.ext
  simp only [secondsField, e]
  rw [show "#EXTINF:".length = "#EXTINF:".data.length from rfl, List.drop_left]
  exact takeWhile_until_comma _ _ hc

/-- C9 (amended). For every track the Extended List entry writer hands to `Write`
a text whose seconds field, between `#EXTINF:` and the first comma, is the
decimal form of `TotalTime / 1000` truncated toward zero; whenever `TotalTime`
is not negative this is the floor of `TotalTime / 1000`. -/
theorem extinf_seconds_truncated (track : Track) (loc : String) :
    (∀ (env : Env) (file : Option String) (st : ExportSettings) (p : Playlist) (w : World),
      (extPlaylistWriters env).entry file st p track loc w =
        Write env file (extEntryString track loc) w) ∧
    secondsField (extEntryString track loc) = formatInt (track.TotalTime.tdiv 1000) ∧
    (0 ≤ track.TotalTime →
      secondsField (extEntryString track loc) =
        formatInt ⌊(track.TotalTime : ℚ) / 1000⌋) := by
  refine ⟨fun _ _ _ _ _ => rfl, secondsField_extEntryString track loc, fun h => ?_⟩
  rw [secondsField_extEntryString]
  have e : ⌊(track.TotalTime : ℚ) / 1000⌋ = track.TotalTime / 1000 := by
    have := Rat.floor_intCast_div_natCast track.TotalTime 1000
    simpa using this
  rw [e, Int.tdiv_eq_ediv h (by decide)]

/-- Witness for C9 (amended): `TotalTime = 185500` renders `185`. -/
theorem extinf_seconds_truncated_witness :
    sampleTrack.TotalTime = 185500 ∧
    secondsField (extEntryString sampleTrack "/C:/Music/song.mp3") = "185" ∧
    formatInt ⌊((185500 : Int) : ℚ) / 1000⌋ = "185" := by
  have h := (extinf_seconds_truncated sampleTrack "/C:/Music/song.mp3").2.2 (by decide)
  have h2 : secondsField (extEntryString sampleTrack "/C:/Music/song.mp3") = "185" := by
    decide
  exact ⟨rfl, h2, by rw [← h2]; exact h.symm⟩

/-- Counterexample to C9 as stated: for `TotalTime = -1500` the seconds field
is `-1`, while the floor of `-1500 / 1000` is `-2`. -/
theorem extinf_seconds_floor_counterexample :
    sampleLibrary.lookup 6 =
      some { Name := "Odd", Artist := "Quartet", TotalTime := -1500, Location := "odd.mp3" } ∧
    extEntryString { Name := "Odd", Artist := "Quartet", TotalTime := -1500,
                     Location := "odd.mp3" } "odd.mp3" =
      "#EXTINF:-1,Quartet - Odd\nodd.mp3\n" ∧
    secondsField "#EXTINF:-1,Quartet - Odd\nodd.mp3\n" = "-1" ∧
    ⌊((-1500 : Int) : ℚ) / 1000⌋ = -2 ∧
    formatInt (-2) = "-2" ∧
    secondsField "#EXTINF:-1,Quartet - Odd\nodd.mp3\n" ≠ formatInt (-2) ∧
    (exportPlaylist (sampleEnv false) (sampleSettings EXT) { Name := "Mix", TrackIDs := [6] }
      emptyWorld).world.files "/work/out/Mix.m3u" =
      some "#EXTM3U\n#EXTINF:-1,Quartet - Odd\nodd.mp3\n" := by
  refine ⟨by decide, by decide, by decide, ?_, by decide, by decide, by decide⟩
  have := Rat.floor_intCast_div_natCast (-1500) 1000
  simpa using this

/-! ## C10: sequence formats for a playlist without tracks -/

theorem countOcc_cons (pat : List Char) (c : Char) (cs : List Char) :
    countOcc pat (c :: cs) = (if pat.isPrefixOf (c :: cs) then 1 else 0) + countOcc pat cs :=
  rfl

theorem isPrefixOf_cons_cons (a b : Char) (p t : List Char) :
    (a :: p).isPrefixOf (b :: t) = (a == b && p.isPrefixOf t) := rfl

theorem isPrefixOf_before_lt (Y : List Char) :
    ∀ (p t : List Char), '<' ∉ p →
      p.isPrefixOf (t ++ '<' :: Y) = p.isPrefixOf t := by
  intro p
  induction p with
  | nil => intro t _; simp
  | cons a p' ih =>
    intro t hp
    have ha : a ≠ '<' := fun e => hp (by simp [e])
    have hp' : '<' ∉ p' := fun h => hp (by simp [h])
    cases t with
    | nil => simp [List.isPrefixOf, ha]
    | cons b t' => simp [List.isPrefixOf, ih t' hp']

theorem countOcc_before_lt (rest Y : List Char) (hrest : '<' ∉ rest) :
    ∀ s : List Char,
      countOcc ('<' :: rest) (s ++ '<' :: Y) =
        countOcc ('<' :: rest) s + countOcc ('<' :: rest) ('<' :: Y) := by
  intro s
  induction s with
  | nil => simp [countOcc]
  | cons c s' ih =>
    have h : ('<' :: rest).isPrefixOf (c :: (s' ++ '<' :: Y)) =
        ('<' :: rest).isPrefixOf (c :: s') := by
      rw [isPrefixOf_cons_cons, isPrefixOf_cons_cons, isPrefixOf_before_lt Y rest s' hrest]
    rw [List.cons_append, countOcc_cons, countOcc_cons, h, ih]
    omega

theorem isPrefixOf_after_gt (Z : List Char) :
    ∀ (A p : List Char), '>' ∉ p.dropLast →
      p.isPrefixOf ((A ++ ['>']) ++ Z) = p.isPrefixOf (A ++ ['>']) := by
  intro A
  induction A with
  | nil =>
    intro p hp
    cases p with
    | nil => simp
    | cons a p' =>
      cases p' with
      | nil => simp [List.isPrefixOf]
      | cons b p'' =>
        have ha : a ≠ '>' := fun e => hp (by simp [e])
        simp [List.isPrefixOf, ha]
  | cons c A' ih =>
    intro p hp
    cases p with
    | nil => simp
    | cons a p' =>
      have hp' : '>' ∉ p'.dropLast := by
        cases p' with
        | nil => simp
        | cons b p'' => exact fun h => hp (by simp [h])
      rw [List.cons_append, List.cons_append, isPrefixOf_cons_cons, isPrefixOf_cons_cons,
        ih p' hp']

theorem countOcc_after_gt (pat Z : List Char) (hpat : '>' ∉ pat.dropLast) :
    ∀ A : List Char,
      countOcc pat ((A ++ ['>']) ++ Z) = countOcc pat (A ++ ['>']) + countOcc pat Z := by
  intro A
  induction A with
  | nil =>
    have h := isPrefixOf_after_gt Z [] pat hpat
    rw [List.nil_append, List.singleton_append] at h
    rw [List.nil_append, List.singleton_append, countOcc_cons, countOcc_cons, h]
    simp [countOcc]
  | cons c A' ih =>
    have h := isPrefixOf_after_gt Z (c :: A') pat hpat
    rw [List.cons_append, List.cons_append] at h
    rw [List.cons_append, List.cons_append, countOcc_cons, countOcc_cons, h, ih]
    omega

/-- Occurrences of a tag in a text `A ++ name ++ Y` where `A` ends with `>` and
`Y` starts with `<`: no occurrence lies across the ends of `name`. -/
theorem occurrences_around (tag A name Y : String) (rest A' Y' : List Char)
    (htag : tag.data = '<' :: rest) (hrest : '<' ∉ rest)
    (hgt : '>' ∉ tag.data.dropLast)
    (hA : A.data = A' ++ ['>']) (hY : Y.data = '<' :: Y') :
    occurrences tag (A ++ name ++ Y) =
      occurrences tag A + occurrences tag name + occurrences tag Y := by
  unfold occurrences
  simp only [String.data_append, List.append_assoc, hA, hY]
  rw [← List.append_assoc, countOcc_after_gt _ _ hgt, htag,
    countOcc_before_lt rest Y' hrest]
  omega

theorem occurrences_wpl (tag name : String) (rest : List Char)
    (htag : tag.data = '<' :: rest) (hrest : '<' ∉ rest) (hgt : '>' ∉ tag.data.dropLast) :
    occurrences tag (wplHeaderString name ++ wplFooterString) =
      occurrences tag
          "<?wpl version=\\\"1.0\\\"?>\n<smil>\n  <head>\n    <author />\n    <title>" +
        occurrences tag name +
        occurrences tag ("</title>\n  </head>\n  <body>\n    <seq>\n" ++ wplFooterString) := by
  have e : wplHeaderString name ++ wplFooterString =
      "<?wpl version=\\\"1.0\\\"?>\n<smil>\n  <head>\n    <author />\n    <title>" ++ name ++
        ("</title>\n  </head>\n  <body>\n    <seq>\n" ++ wplFooterString) := by
    simp [wplHeaderString, String.append_assoc]
  rw [e]
  exact occurrences_around tag _ name _ rest
    ("<?wpl version=\\\"1.0\\\"?>\n<smil>\n  <head>\n    <author />\n    <title>".data.dropLast)
    (("</title>\n  </head>\n  <body>\n    <seq>\n" ++ wplFooterString).data.tail)
    htag hrest hgt (by decide) (by decide)

theorem occurrences_zpl (tag name : String) (rest : List Char)
    (htag : tag.data = '<' :: rest) (hrest : '<' ∉ rest) (hgt : '>' ∉ tag.data.dropLast) :
    occurrences tag (zplHeaderString name ++ zplFooterString) =
      occurrences tag ("<?zpl version=\\\"1.0\\\"?>\n<smil>\n  <head>\n" ++
          "    <meta name=\"Generator\" content=\"Zune -- 1.3.5728.0\" />\n" ++
          "    <author />\n    <title>") +
        occurrences tag name +
        occurrences tag ("</title>\n  </head>\n  <body>\n    <seq>\n" ++ zplFooterString) := by
  have e : zplHeaderString name ++ zplFooterString =
      ("<?zpl version=\\\"1.0\\\"?>\n<smil>\n  <head>\n" ++
          "    <meta name=\"Generator\" content=\"Zune -- 1.3.5728.0\" />\n" ++
          "    <author />\n    <title>") ++ name ++
        ("</title>\n  </head>\n  <body>\n    <seq>\n" ++ zplFooterString) := by
    simp [zplHeaderString, String.append_assoc]
  rw [e]
  exact occurrences_around tag _ name _ rest
    (("<?zpl version=\\\"1.0\\\"?>\n<smil>\n  <head>\n" ++
          "    <meta name=\"Generator\" content=\"Zune -- 1.3.5728.0\" />\n" ++
          "    <author />\n    <title>").data.dropLast)
    (("</title>\n  </head>\n  <body>\n    <seq>\n" ++ zplFooterString).data.tail)
    htag hrest hgt (by decide) (by decide)

set_option maxRecDepth 20000 in
theorem occurrences_sequence (t : Int) (ht : t = WPL ∨ t = ZPL) (env : Env) (p : Playlist)
    (now : String) :
    occurrences "<seq>" (headerOf env t p now ++ concatAll (footerOf t)) =
      1 + occurrences "<seq>" p.Name ∧
    occurrences "</seq>" (headerOf env t p now ++ concatAll (footerOf t)) =
      1 + occurrences "</seq>" p.Name ∧
    occurrences "<smil>" (headerOf env t p now ++ concatAll (footerOf t)) =
      1 + occurrences "<smil>" p.Name ∧
    occurrences "</smil>" (headerOf env t p now ++ concatAll (footerOf t)) =
      1 + occurrences "</smil>" p.Name := by
  rcases ht with ht | ht
  · have e : headerOf env t p now ++ concatAll (footerOf t) =
        wplHeaderString p.Name ++ wplFooterString := by
      subst ht; simp [headerOf, footerOf, M3U, EXT, WPL, concatAll]
    rw [e]
    refine ⟨?_, ?_, ?_, ?_⟩
    · rw [occurrences_wpl "<seq>" p.Name _ rfl (by decide) (by decide)]
      have h1 : occurrences "<seq>"
          "<?wpl version=\\\"1.0\\\"?>\n<smil>\n  <head>\n    <author />\n    <title>" = 0 := by
        decide
      have h2 : occurrences "<seq>"
          ("</title>\n  </head>\n  <body>\n    <seq>\n" ++ wplFooterString) = 1 := by decide
      omega
    · rw [occurrences_wpl "</seq>" p.Name _ rfl (by decide) (by decide)]
      have h1 : occurrences "</seq>"
          "<?wpl version=\\\"1.0\\\"?>\n<smil>\n  <head>\n    <author />\n    <title>" = 0 := by
        decide
      have h2 : occurrences "</seq>"
          ("</title>\n  </head>\n  <body>\n    <seq>\n" ++ wplFooterString) = 1 := by decide
      omega
    · rw [occurrences_wpl "<smil>" p.Name _ rfl (by decide) (by decide)]
      have h1 : occurrences "<smil>"
          "<?wpl version=\\\"1.0\\\"?>\n<smil>\n  <head>\n    <author />\n    <title>" = 1 := by
        decide
      have h2 : occurrences "<smil>"
          ("</title>\n  </head>\n  <body>\n    <seq>\n" ++ wplFooterString) = 0 := by decide
      omega
    · rw [occurrences_wpl "</smil>" p.Name _ rfl (by decide) (by decide)]
      have h1 : occurrences "</smil>"
          "<?wpl version=\\\"1.0\\\"?>\n<smil>\n  <head>\n    <author />\n    <title>" = 0 := by
        decide
      have h2 : occurrences "</smil>"
          ("</title>\n  </head>\n  <body>\n    <seq>\n" ++ wplFooterString) = 1 := by decide
      omega
  · have e : headerOf env t p now ++ concatAll (footerOf t) =
        zplHeaderString p.Name ++ zplFooterString := by
      subst ht; simp [headerOf, footerOf, M3U, EXT, WPL, ZPL, concatAll]
    rw [e]
    refine ⟨?_, ?_, ?_, ?_⟩
    · rw [occurrences_zpl "<seq>" p.Name _ rfl (by decide) (by decide)]
      have h1 : occurrences "<seq>" ("<?zpl version=\\\"1.0\\\"?>\n<smil>\n  <head>\n" ++
          "    <meta name=\"Generator\" content=\"Zune -- 1.3.5728.0\" />\n" ++
          "    <author />\n    <title>") = 0 := by decide
      have h2 : occurrences "<seq>"
          ("</title>\n  </head>\n  <body>\n    <seq>\n" ++ zplFooterString) = 1 := by decide
      omega
    · rw [occurrences_zpl "</seq>" p.Name _ rfl (by decide) (by decide)]
      have h1 : occurrences "</seq>" ("<?zpl version=\\\"1.0\\\"?>\n<smil>\n  <head>\n" ++
          "    <meta name=\"Generator\" content=\"Zune -- 1.3.5728.0\" />\n" ++
          "    <author />\n    <title>") = 0 := by decide
      have h2 : occurrences "</seq>"
          ("</title>\n  </head>\n  <body>\n    <seq>\n" ++ zplFooterString) = 1 := by decide
      omega
    · rw [occurrences_zpl "<smil>" p.Name _ rfl (by decide) (by decide)]
      have h1 : occurrences "<smil>" ("<?zpl version=\\\"1.0\\\"?>\n<smil>\n  <head>\n" ++
          "    <meta name=\"Generator\" content=\"Zune -- 1.3.5728.0\" />\n" ++
          "    <author />\n    <title>") = 1 := by decide
      have h2 : occurrences "<smil>"
          ("</title>\n  </head>\n  <body>\n    <seq>\n" ++ zplFooterString) = 0 := by decide
      omega
    · rw [occurrences_zpl "</smil>" p.Name _ rfl (by decide) (by decide)]
      have h1 : occurrences "</smil>" ("<?zpl version=\\\"1.0\\\"?>\n<smil>\n  <head>\n" ++
          "    <meta name=\"Generator\" content=\"Zune -- 1.3.5728.0\" />\n" ++
          "    <author />\n    <title>") = 0 := by decide
      have h2 : occurrences "</smil>"
          ("</title>\n  </head>\n  <body>\n    <seq>\n" ++ zplFooterString) = 1 := by decide
      omega

/-- C10 (amended). For every playlist without tracks exported as Windows
Sequence or Zune Sequence, when the open and the two writes succeed the file is
the header directly followed by the footer, and each of `<seq>`, `</seq>`,
`<smil>` and `</smil>` occurs in it exactly once more than in the playlist
name, which is copied into the header as it is.  So the output is balanced
exactly when the name is, in particular when the name holds none of the four
tags. -/
theorem empty_sequence_output (env : Env) (st : ExportSettings) (p : Playlist) (w : World)
    (hfmt : st.ExportType = WPL ∨ st.ExportType = ZPL)
    (hempty : env.Tracks p st.Library = [])
    (hok : ∀ n, w.ticks ≤ n → n ≤ w.ticks + 2 → env.outcome n = Outcome.ok) :
    (exportPlaylist env st p w).err = none ∧
    (exportPlaylist env st p w).world.files (fileOf env st p) =
      some (headerOf env st.ExportType p (env.now (w.ticks + 1)) ++
        concatAll (footerOf st.ExportType)) ∧
    occurrences "<seq>" (headerOf env st.ExportType p (env.now (w.ticks + 1)) ++
      concatAll (footerOf st.ExportType)) = 1 + occurrences "<seq>" p.Name ∧
    occurrences "</seq>" (headerOf env st.ExportType p (env.now (w.ticks + 1)) ++
      concatAll (footerOf st.ExportType)) = 1 + occurrences "</seq>" p.Name ∧
    occurrences "<smil>" (headerOf env st.ExportType p (env.now (w.ticks + 1)) ++
      concatAll (footerOf st.ExportType)) = 1 + occurrences "<smil>" p.Name ∧
    occurrences "</smil>" (headerOf env st.ExportType p (env.now (w.ticks + 1)) ++
      concatAll (footerOf st.ExportType)) = 1 + occurrences "</smil>" p.Name ∧
    (Balanced (headerOf env st.ExportType p (env.now (w.ticks + 1)) ++
      concatAll (footerOf st.ExportType)) ↔ Balanced p.Name) := by
  have hsup : st.ExportType = M3U ∨ st.ExportType = EXT ∨ st.ExportType = WPL ∨
      st.ExportType = ZPL := by
    rcases hfmt with h | h
    · exact Or.inr (Or.inr (Or.inl h))
    · exact Or.inr (Or.inr (Or.inr h))
  have hlen : (pieces env st.ExportType p (env.now (w.ticks + 1))
      (env.Tracks p st.Library)).length = 2 := by
    rcases hfmt with h | h <;>
      simp [pieces, hempty, retainedTracks, footerOf, h, M3U, EXT, WPL, ZPL]
  have h1 := exportPlaylist_all_pieces env st p w hsup (by rw [hlen]; exact hok)
  have hocc := occurrences_sequence st.ExportType hfmt env p (env.now (w.ticks + 1))
  refine ⟨h1.1, ?_, hocc.1, hocc.2.1, hocc.2.2.1, hocc.2.2.2, ?_⟩
  · rw [h1.2]
    simp [setFile, pieces, hempty, retainedTracks, concatAll]
  · unfold Balanced
    rw [hocc.1, hocc.2.1, hocc.2.2.1, hocc.2.2.2]
    constructor
    · rintro ⟨ha, hb⟩; exact ⟨by omega, by omega⟩
    · rintro ⟨ha, hb⟩; exact ⟨by omega, by omega⟩

set_option maxRecDepth 20000 in
/-- Witness for C10 (amended): the playlist "Empty" without tracks as a Windows
Sequence; the file is the header followed by the footer and is balanced. -/
theorem empty_sequence_output_witness :
    (exportPlaylist (sampleEnv false) (sampleSettings WPL) { Name := "Empty", TrackIDs := [] }
      emptyWorld).world.files "/work/out/Empty.m3u" =
      some ("<?wpl version=\\\"1.0\\\"?>\n<smil>\n  <head>\n    <author />\n" ++
        "    <title>Empty</title>\n  </head>\n  <body>\n    <seq>\n" ++
        "    </seq>\n  </body>\n</smil>\n") ∧
    Balanced ("<?wpl version=\\\"1.0\\\"?>\n<smil>\n  <head>\n    <author />\n" ++
        "    <title>Empty</title>\n  </head>\n  <body>\n    <seq>\n" ++
        "    </seq>\n  </body>\n</smil>\n") := by
  have h := empty_sequence_output (sampleEnv false) (sampleSettings WPL)
    { Name := "Empty", TrackIDs := [] } emptyWorld (Or.inl rfl) rfl (fun _ _ _ => rfl)
  exact ⟨h.2.1, h.2.2.2.2.2.2.mpr (by decide)⟩

set_option maxRecDepth 20000 in
/-- Counterexample to C10 as stated: a playlist without tracks named `<seq>`,
exported as a Windows Sequence; the file holds two `<seq>` and one `</seq>`. -/
theorem empty_sequence_balanced_counterexample :
    (exportPlaylist (sampleEnv false) (sampleSettings WPL) { Name := "<seq>", TrackIDs := [] }
      emptyWorld).err = none ∧
    (exportPlaylist (sampleEnv false) (sampleSettings WPL) { Name := "<seq>", TrackIDs := [] }
      emptyWorld).world.files "/work/out/<seq>.m3u" =
      some ("<?wpl version=\\\"1.0\\\"?>\n<smil>\n  <head>\n    <author />\n" ++
        "    <title><seq></title>\n  </head>\n  <body>\n    <seq>\n" ++
        "    </seq>\n  </body>\n</smil>\n") ∧
    occurrences "<seq>" ("<?wpl version=\\\"1.0\\\"?>\n<smil>\n  <head>\n    <author />\n" ++
        "    <title><seq></title>\n  </head>\n  <body>\n    <seq>\n" ++
        "    </seq>\n  </body>\n</smil>\n") = 2 ∧
    occurrences "</seq>" ("<?wpl version=\\\"1.0\\\"?>\n<smil>\n  <head>\n    <author />\n" ++
        "    <title><seq></title>\n  </head>\n  <body>\n    <seq>\n" ++
        "    </seq>\n  </body>\n</smil>\n") = 1 ∧
    ¬ Balanced ("<?wpl version=\\\"1.0\\\"?>\n<smil>\n  <head>\n    <author />\n" ++
        "    <title><seq></title>\n  </head>\n  <body>\n    <seq>\n" ++
        "    </seq>\n  </body>\n</smil>\n") := by
  refine ⟨by decide, by decide, by decide, by decide, by decide⟩

/-! ## C11: Zune Sequence against Windows Sequence -/

/-- C11 (amended). The entry writer and the footer writer of the Zune Sequence
format are those of the Windows Sequence format: they hand the same bytes to
`Write` for every track and location.  The Zune header is the Windows header
with the generator `<meta>` line inserted after `<head>` and with the prolog
`<?wpl` replaced by `<?zpl`; every other byte is the same.  So for every
playlist the two formats write the same texts after the header. -/
theorem zune_is_windows_with_meta_and_prolog (env : Env) :
    (zplPlaylistWriters env).entry = (wplPlaylistWriters env).entry ∧
    (zplPlaylistWriters env).footer = (wplPlaylistWriters env).footer ∧
    (∀ loc : String, zplEntryString loc = wplEntryString loc) ∧
    zplFooterString = wplFooterString ∧
    (∀ name : String,
      wplHeaderString name =
        "<?wpl" ++ " version=\\\"1.0\\\"?>\n<smil>\n  <head>\n" ++
          ("    <author />\n    <title>" ++ name ++
            "</title>\n  </head>\n  <body>\n    <seq>\n") ∧
      zplHeaderString name =
        "<?zpl" ++ " version=\\\"1.0\\\"?>\n<smil>\n  <head>\n" ++ generatorMetaLine ++
          ("    <author />\n    <title>" ++ name ++
            "</title>\n  </head>\n  <body>\n    <seq>\n")) ∧
    (∀ (p : Playlist) (now : String) (tracks : List Track),
      (pieces env ZPL p now tracks).tail = (pieces env WPL p now tracks).tail) := by
  refine ⟨rfl, rfl, fun _ => rfl, rfl, fun name => ⟨?_, ?_⟩, fun p now tracks => ?_⟩
  · have e : "<?wpl version=\\\"1.0\\\"?>\n<smil>\n  <head>\n    <author />\n    <title>" =
        "<?wpl" ++ " version=\\\"1.0\\\"?>\n<smil>\n  <head>\n" ++
          "    <author />\n    <title>" := by decide
    unfold wplHeaderString
    rw [e]
    simp only [String.append_assoc]
  · have e : "<?zpl version=\\\"1.0\\\"?>\n<smil>\n  <head>\n" =
        "<?zpl" ++ " version=\\\"1.0\\\"?>\n<smil>\n  <head>\n" := by decide
    unfold zplHeaderString generatorMetaLine
    rw [e]
    simp only [String.append_assoc]
  · simp [pieces, entryOf, footerOf, M3U, EXT, WPL, ZPL, zplEntryString, wplEntryString,
      zplFooterString, wplFooterString]

/-- Counterexample to C11 as stated: for the playlist name "Rock" the Zune
header is not the Windows header with the generator `<meta>` line inserted at
any place, since the third byte of the one is `z` and of the other `w`. -/
theorem zune_header_only_meta_inserted_counterexample :
    wplHeaderString "Rock" =
      "<?wpl version=\\\"1.0\\\"?>\n<smil>\n  <head>\n    <author />\n" ++
        "    <title>Rock</title>\n  </head>\n  <body>\n    <seq>\n" ∧
    zplHeaderString "Rock" =
      "<?zpl version=\\\"1.0\\\"?>\n<smil>\n  <head>\n" ++
        "    <meta name=\"Generator\" content=\"Zune -- 1.3.5728.0\" />\n" ++
        "    <author />\n    <title>Rock</title>\n  </head>\n  <body>\n    <seq>\n" ∧
    ¬ ∃ a b : String,
      wplHeaderString "Rock" = a ++ b ∧
        zplHeaderString "Rock" = a ++ generatorMetaLine ++ b := by
  refine ⟨by decide, by decide, ?_⟩
  rintro ⟨a, b, hw, hz⟩
  have hW : (wplHeaderString "Rock").data =
      '<' :: '?' :: 'w' :: (wplHeaderString "Rock").data.drop 3 := by decide
  have hZ : (zplHeaderString "Rock").data =
      '<' :: '?' :: 'z' :: (zplHeaderString "Rock").data.drop 3 := by decide
  have hM : generatorMetaLine.data = ' ' :: generatorMetaLine.data.tail := by decide
  have hw' := congrArg String.data hw
  have hz' := congrArg String.data hz
  rw [String.data_append, hW] at hw'
  rw [String.data_append, String.data_append, hZ, hM] at hz'
  rcases ha : a.data with _ | ⟨x, _ | ⟨y, _ | ⟨z, rest⟩⟩⟩
  · rw [ha] at hz'
    simp at hz'
  · rw [ha] at hz'
    simp at hz'
  · rw [ha] at hz'
    simp at hz'
  · rw [ha] at hw' hz'
    simp only [List.cons_append, List.cons.injEq] at hw' hz'
    have h1 : 'w' = z := hw'.2.2.1
    have h2 : 'z' = z := hz'.2.2.1
    exact absurd (h1.trans h2.symm) (by decide)

/-! ## C12: when the files are closed -/

theorem exportPlaylist_openFiles (env : Env) (st : ExportSettings) (p : Playlist) (w : World) :
    (exportPlaylist env st p w).world.openFiles =
      (exportPlaylist env st p w).deferred.toList ++ w.openFiles := by
  cases ho : env.outcome w.ticks with
  | fail n text => rw [exportPlaylist_open_fail env st p w n text ho]; rfl
  | ok =>
    by_cases hfmt : st.ExportType = M3U ∨ st.ExportType = EXT ∨ st.ExportType = WPL ∨
        st.ExportType = ZPL
    · rw [exportPlaylist_supported env st p w ho hfmt]; rfl
    · rw [exportPlaylist_unsupported env st p w ho hfmt]; rfl

/-- While the loop runs, every file opened so far is still open. -/
theorem exportLoop_openFiles (env : Env) (st : ExportSettings) (base : List String) :
    ∀ (ps : List Playlist) (ds : List (Option String)) (w : World),
      w.openFiles = ds.filterMap id ++ base →
      (exportLoop env st ps ds w).world.openFiles =
        (exportLoop env st ps ds w).deferred.filterMap id ++ base := by
  intro ps
  induction ps with
  | nil => intro ds w h; exact h
  | cons p rest ih =>
    intro ds w h
    have hp := exportPlaylist_openFiles env st p w
    have hw : (exportPlaylist env st p w).world.openFiles =
        ((exportPlaylist env st p w).deferred :: ds).filterMap id ++ base := by
      rw [hp, h]
      cases (exportPlaylist env st p w).deferred <;> simp
    simp only [exportLoop]
    cases he : (exportPlaylist env st p w).err with
    | some e => exact hw
    | none => exact ih _ _ hw

theorem runDeferred_openFiles (base : List String) :
    ∀ (ds : List (Option String)) (w : World),
      w.openFiles = ds.filterMap id ++ base → (runDeferred ds w).openFiles = base := by
  intro ds
  induction ds with
  | nil => intro w h; simpa [runDeferred] using h
  | cons d rest ih =>
    intro w h
    simp only [runDeferred]
    apply ih
    cases d with
    | none => simpa [Close] using h
    | some f => simp [Close, h]

/-- When `ExportPlaylists` returns, on every path, the files it opened are
closed: the open handles are those of before the call. -/
theorem ExportPlaylists_openFiles (env : Env) (st : ExportSettings) (w : World) :
    (ExportPlaylists env st w).world.openFiles = w.openFiles := by
  simp only [ExportPlaylists]
  exact runDeferred_openFiles w.openFiles _ _
    (exportLoop_openFiles env st w.openFiles st.Playlists [] w (by simp))

/-- C12 (the code at the failing input). The playlists "Rock" and "Jazz" on a
host where every call succeeds: when the processing of "Rock" ends its file is
still open, the file of "Jazz" is opened while it is, both are open when the
loop ends, and they are closed only when `ExportPlaylists` returns. -/
theorem files_stay_open_until_return :
    (sampleSettings M3U).Playlists =
      [{ Name := "Rock", TrackIDs := [1] }, { Name := "Jazz", TrackIDs := [2] }] ∧
    (exportPlaylist (sampleEnv false) (sampleSettings M3U) { Name := "Rock", TrackIDs := [1] }
      emptyWorld).err = none ∧
    (exportPlaylist (sampleEnv false) (sampleSettings M3U) { Name := "Rock", TrackIDs := [1] }
      emptyWorld).world.openFiles = ["out/Rock.m3u"] ∧
    (OpenFile (sampleEnv false) "out/Jazz.m3u"
      (exportPlaylist (sampleEnv false) (sampleSettings M3U)
        { Name := "Rock", TrackIDs := [1] } emptyWorld).world).world.openFiles =
      ["out/Jazz.m3u", "out/Rock.m3u"] ∧
    (exportLoop (sampleEnv false) (sampleSettings M3U) (sampleSettings M3U).Playlists []
      emptyWorld).err = none ∧
    (exportLoop (sampleEnv false) (sampleSettings M3U) (sampleSettings M3U).Playlists []
      emptyWorld).world.openFiles = ["out/Jazz.m3u", "out/Rock.m3u"] ∧
    (ExportPlaylists (sampleEnv false) (sampleSettings M3U) emptyWorld).world.openFiles =
      [] := by
  refine ⟨by decide, by decide, by decide, by decide, by decide, by decide, by decide⟩

/-! ## C13: the Simple List header and footer -/

theorem countOcc_infix_pos (c : Char) (r b : List Char) :
    ∀ a : List Char, 1 ≤ countOcc (c :: r) (a ++ (c :: r) ++ b) := by
  intro a
  induction a with
  | nil =>
    have h : (c :: r).isPrefixOf (c :: (r ++ b)) = true :=
      List.isPrefixOf_iff_prefix.mpr ⟨b, rfl⟩
    rw [List.nil_append, List.cons_append, countOcc_cons, h]
    simp
  | cons x a' ih =>
    rw [List.cons_append, List.cons_append, countOcc_cons]
    omega

theorem occurrences_infix_pos (pat a b : String) (c : Char) (r : List Char)
    (hp : pat.data = c :: r) : 1 ≤ occurrences pat (a ++ pat ++ b) := by
  unfold occurrences
  rw [String.data_append, String.data_append, hp]
  exact countOcc_infix_pos c r b.data a.data

/-- C13 (amended). For every playlist name, timestamp and version the Simple
List header writer hands to `Write` exactly
`# M3U Playlist '<name>' exported <timestamp> by iTunes Export v. <version>
(http://www.ericdaugherty.com/dev/itunesexport/)` and one newline: the words
of the specification with `M3U` as playlist-name and with a space between `v.`
and the version.  It is a single line whenever the name, the timestamp and the
version hold no newline.  The Simple List footer writes nothing. -/
theorem simple_list_header_text (env : Env) (file : Option String) (st : ExportSettings)
    (p : Playlist) (w : World) :
    (m3uPlaylistWriters env).header file st p w =
      Write env file
        ("# M3U Playlist '" ++ p.Name ++ "' exported " ++ env.now w.ticks ++
          " by iTunes Export v." ++ " " ++ env.Version ++
          " (http://www.ericdaugherty.com/dev/itunesexport/)" ++ "\n") w ∧
    (∀ name now version : String,
      m3uHeaderString name now version =
        specSimpleListHeader "M3U" name now "iTunes Export" (" " ++ version)
          "http://www.ericdaugherty.com/dev/itunesexport/") ∧
    (NoNewline p.Name → NoNewline (env.now w.ticks) → NoNewline env.Version →
      lines (m3uHeaderString p.Name (env.now w.ticks) env.Version) =
        [m3uHeaderLine p.Name (env.now w.ticks) env.Version]) ∧
    (m3uPlaylistWriters env).footer file st p w = { err := none, world := w } := by
  refine ⟨?_, ?_, ?_, rfl⟩
  · have e : m3uHeaderString p.Name (env.now w.ticks) env.Version =
        "# M3U Playlist '" ++ p.Name ++ "' exported " ++ env.now w.ticks ++
          " by iTunes Export v." ++ " " ++ env.Version ++
          " (http://www.ericdaugherty.com/dev/itunesexport/)" ++ "\n" := by
      have e1 : " by iTunes Export v. " = " by iTunes Export v." ++ " " := by decide
      have e2 : " (http://www.ericdaugherty.com/dev/itunesexport/)\n" =
          " (http://www.ericdaugherty.com/dev/itunesexport/)" ++ "\n" := by decide
      unfold m3uHeaderString
      rw [e1, e2]
      simp only [String.append_assoc]
    show Write env file (m3uHeaderString p.Name (env.now w.ticks) env.Version) w = _
    rw [e]
  · intro name now version
    have e1 : " by iTunes Export v. " = " by " ++ "iTunes Export" ++ " v." ++ " " := by decide
    have e2 : " (http://www.ericdaugherty.com/dev/itunesexport/)\n" =
        " (" ++ "http://www.ericdaugherty.com/dev/itunesexport/" ++ ")\n" := by decide
    have e3 : "# M3U Playlist '" = "# " ++ "M3U" ++ " Playlist '" := by decide
    unfold m3uHeaderString specSimpleListHeader
    rw [e1, e2, e3]
    simp only [String.append_assoc]
  · intro h1 h2 h3
    have e : m3uHeaderString p.Name (env.now w.ticks) env.Version =
        m3uHeaderLine p.Name (env.now w.ticks) env.Version ++ "\n" ++ "" := by
      have e2 : " (http://www.ericdaugherty.com/dev/itunesexport/)\n" =
          " (http://www.ericdaugherty.com/dev/itunesexport/)" ++ "\n" := by decide
      unfold m3uHeaderString m3uHeaderLine
      rw [e2]
      simp only [String.append_assoc, String.append_empty]
    rw [e, lines_line _ _ (m3uHeaderLine_noNewline _ _ _ h1 h2 h3)]
    rfl

/-- Witness for C13 (amended): the header of the playlist "Rock" with version
"1.0" is one line, with `v. 1.0`. -/
theorem simple_list_header_text_witness :
    lines (m3uHeaderString "Rock" "2024-01-02 3:04PM" "1.0") =
      ["# M3U Playlist 'Rock' exported 2024-01-02 3:04PM by iTunes Export v. 1.0 " ++
        "(http://www.ericdaugherty.com/dev/itunesexport/)"] :=
  (simple_list_header_text (sampleEnv false) (some "out/Rock.m3u") (sampleSettings M3U)
    { Name := "Rock", TrackIDs := [1] } emptyWorld).2.2.1 (by decide) (by decide) (by decide)

set_option maxRecDepth 20000 in
/-- Counterexample to C13 as stated: for the name "Rock", the timestamp
"2024-01-02 3:04PM" and the version "1.0" the header holds `v. 1.0`; it is the
line of the specification for no playlist-name, product and URL, since in that
line the version follows `v.` directly. -/
theorem simple_list_header_version_counterexample :
    m3uHeaderString "Rock" "2024-01-02 3:04PM" "1.0" =
      "# M3U Playlist 'Rock' exported 2024-01-02 3:04PM by iTunes Export v. 1.0 " ++
        "(http://www.ericdaugherty.com/dev/itunesexport/)\n" ∧
    ¬ ∃ playlistName product url : String,
      m3uHeaderString "Rock" "2024-01-02 3:04PM" "1.0" =
        specSimpleListHeader playlistName "Rock" "2024-01-02 3:04PM" product "1.0" url := by
  refine ⟨by decide, ?_⟩
  rintro ⟨pn, product, url, h⟩
  have h0 : occurrences "v.1" (m3uHeaderString "Rock" "2024-01-02 3:04PM" "1.0") = 0 := by
    decide
  have e : specSimpleListHeader pn "Rock" "2024-01-02 3:04PM" product "1.0" url =
      ("# " ++ pn ++ " Playlist '" ++ "Rock" ++ "' exported " ++ "2024-01-02 3:04PM" ++
        " by " ++ product ++ " ") ++ "v.1" ++ (".0" ++ " (" ++ url ++ ")\n") := by
    have e1 : (" v." : String) = " " ++ "v." := by decide
    have e2 : ("1.0" : String) = "1" ++ ".0" := by decide
    have e3 : ("v.1" : String) = "v." ++ "1" := by decide
    unfold specSimpleListHeader
    rw [e1, e2, e3]
    simp only [String.append_assoc]
  have h1 := occurrences_infix_pos "v.1"
    ("# " ++ pn ++ " Playlist '" ++ "Rock" ++ "' exported " ++ "2024-01-02 3:04PM" ++
        " by " ++ product ++ " ") (".0" ++ " (" ++ url ++ ")\n") 'v' ['.', '1'] (by decide)
  rw [← e, ← h, h0] at h1
  omega

/-! ## C14: `+` decodes to a space -/

theorem unhex_plusToSpace (c : Char) : unhex (plusToSpace c) = unhex c := by
  unfold plusToSpace
  split_ifs with h
  · subst h; decide
  · rfl

theorem plusToSpace_eq_percent (c : Char) : plusToSpace c = '%' ↔ c = '%' := by
  unfold plusToSpace
  split_ifs with h
  · subst h; decide
  · rfl

theorem unescapeBuild_eq_percentDecode :
    ∀ (n : Nat) (s : List Char), s.length ≤ n →
      unescapeBuild s = percentDecode (s.map plusToSpace) := by
  intro n
  induction n with
  | zero =>
    intro s hs
    have : s = [] := List.length_eq_zero.mp (by omega)
    subst this
    rfl
  | succ n ih =>
    intro s hs
    match s, hs with
    | [], _ => rfl
    | [c], _ =>
      by_cases hc : c = '%'
      · subst hc; decide
      · by_cases hp : c = '+'
        · subst hp; decide
        · have h1 : plusToSpace c = c := by simp [plusToSpace, hp]
          simp [unescapeBuild, percentDecode, hc, hp, h1]
    | [c, h], hs =>
      have i1 := ih [h] (by simp at hs ⊢; omega)
      by_cases hc : c = '%'
      · subst hc
        have : plusToSpace '%' = '%' := by decide
        simp [unescapeBuild, percentDecode, this]
      · by_cases hp : c = '+'
        · subst hp
          have : plusToSpace '+' = ' ' := by decide
          rw [show unescapeBuild ['+', h] = ' ' :: unescapeBuild [h] from by
            simp [unescapeBuild]]
          rw [List.map_cons, this,
            show percentDecode (' ' :: List.map plusToSpace [h]) =
              ' ' :: percentDecode (List.map plusToSpace [h]) from by simp [percentDecode],
            i1]
        · have h1 : plusToSpace c = c := by simp [plusToSpace, hp]
          rw [show unescapeBuild [c, h] = c :: unescapeBuild [h] from by
            simp [unescapeBuild, hc, hp]]
          rw [List.map_cons, h1,
            show percentDecode (c :: List.map plusToSpace [h]) =
              c :: percentDecode (List.map plusToSpace [h]) from by simp [percentDecode, hc],
            i1]
    | c :: h :: l :: rest, hs =>
      have i1 := ih (h :: l :: rest) (by simp at hs ⊢; omega)
      have i3 := ih rest (by simp at hs; omega)
      by_cases hc : c = '%'
      · subst hc
        have : plusToSpace '%' = '%' := by decide
        simp only [unescapeBuild, List.map_cons, this, percentDecode, if_true,
          unhex_plusToSpace, i3]
      · by_cases hp : c = '+'
        · subst hp
          have : plusToSpace '+' = ' ' := by decide
          rw [show unescapeBuild ('+' :: h :: l :: rest) = ' ' :: unescapeBuild (h :: l :: rest)
            from by simp [unescapeBuild]]
          rw [List.map_cons, this,
            show percentDecode (' ' :: List.map plusToSpace (h :: l :: rest)) =
              ' ' :: percentDecode (List.map plusToSpace (h :: l :: rest)) from by
                simp [percentDecode],
            i1]
        · have h1 : plusToSpace c = c := by simp [plusToSpace, hp]
          rw [show unescapeBuild (c :: h :: l :: rest) = c :: unescapeBuild (h :: l :: rest)
            from by simp [unescapeBuild, hc, hp]]
          rw [List.map_cons, h1,
            show percentDecode (c :: List.map plusToSpace (h :: l :: rest)) =
              c :: percentDecode (List.map plusToSpace (h :: l :: rest)) from by
                simp [percentDecode, hc],
            i1]

theorem unescapeBuild_cons_ne (c : Char) (rest : List Char) (hc : c ≠ '%') :
    unescapeBuild (c :: rest) = plusToSpace c :: unescapeBuild rest := by
  by_cases hp : c = '+'
  · subst hp
    match rest with
    | [] => simp [unescapeBuild, plusToSpace]
    | [_] => simp [unescapeBuild, plusToSpace]
    | _ :: _ :: _ => simp [unescapeBuild, plusToSpace]
  · match rest with
    | [] => simp [unescapeBuild, plusToSpace, hc, hp]
    | [_] => simp [unescapeBuild, plusToSpace, hc, hp]
    | _ :: _ :: _ => simp [unescapeBuild, plusToSpace, hc, hp]

theorem unescapeCheck_percent (h l : Char) (rest : List Char)
    (hx : (ishex h && ishex l) = true) :
    unescapeCheck ('%' :: h :: l :: rest) = unescapeCheck rest := by
  simp [unescapeCheck, hx]

theorem unescapeBuild_percent (h l : Char) (rest : List Char) :
    unescapeBuild ('%' :: h :: l :: rest) =
      Char.ofNat (unhex h * 16 + unhex l) :: unescapeBuild rest := by
  simp [unescapeBuild]

theorem percentDecode_cons_ne (c : Char) (rest : List Char) (hc : c ≠ '%') :
    percentDecode (c :: rest) = c :: percentDecode rest := by
  match rest with
  | [] => simp [percentDecode, hc]
  | [_] => simp [percentDecode, hc]
  | _ :: _ :: _ => simp [percentDecode, hc]

theorem unescape_append (x : List Char) :
    ∀ (n : Nat) (a : List Char), a.length ≤ n → unescapeCheck a = none →
      unescapeCheck (a ++ x) = unescapeCheck x ∧
      unescapeBuild (a ++ x) = unescapeBuild a ++ unescapeBuild x := by
  intro n
  induction n with
  | zero =>
    intro a ha _
    have : a = [] := List.length_eq_zero.mp (by omega)
    subst this
    exact ⟨rfl, rfl⟩
  | succ n ih =>
    intro a ha hchk
    match a, ha, hchk with
    | [], _, _ => exact ⟨rfl, rfl⟩
    | c :: rest, ha, hchk =>
      by_cases hc : c = '%'
      · subst hc
        match rest, ha, hchk with
        | [], _, hchk => simp [unescapeCheck] at hchk
        | [_], _, hchk => simp [unescapeCheck] at hchk
        | h :: l :: rest', ha, hchk =>
          by_cases hx : (ishex h && ishex l) = true
          · rw [unescapeCheck_percent h l rest' hx] at hchk
            have i := ih rest' (by simp at ha; omega) hchk
            rw [List.cons_append, List.cons_append, List.cons_append,
              unescapeCheck_percent h l _ hx, unescapeBuild_percent, unescapeBuild_percent,
              i.1, i.2]
            exact ⟨rfl, rfl⟩
          · simp [unescapeCheck, hx] at hchk
      · rw [unescapeCheck_cons_ne c rest hc] at hchk
        have i := ih rest (by simp at ha; omega) hchk
        rw [List.cons_append, unescapeCheck_cons_ne c _ hc, unescapeBuild_cons_ne c _ hc,
          unescapeBuild_cons_ne c _ hc, i.1, i.2]
        exact ⟨rfl, rfl⟩

theorem QueryUnescape_ok_iff (s d : String) :
    QueryUnescape s = (d, none) ↔ unescapeCheck s.data = none ∧ d = ⟨unescapeBuild s.data⟩ := by
  unfold QueryUnescape
  cases h : unescapeCheck s.data with
  | some e => simp
  | none =>
    simp only [Prod.mk.injEq, and_true, true_and]
    exact eq_comm

theorem percentDecode_of_no_percent (s : List Char) (h : '%' ∉ s) : percentDecode s = s := by
  induction s with
  | nil => rfl
  | cons c rest ih =>
    have hc : c ≠ '%' := fun e => h (by simp [e])
    have hr : '%' ∉ rest := fun e => h (by simp [e])
    rw [percentDecode_cons_ne c rest hc, ih hr]

theorem TrimPrefix_drop (d x : String) (hx : ' ' ∉ x.data) :
    ∃ k, (TrimPrefix d x).data = d.data.drop k ∧ ' ' ∉ d.data.take k := by
  unfold TrimPrefix
  by_cases h : HasPrefix d x = true
  · refine ⟨x.data.length, by simp [h], ?_⟩
    unfold HasPrefix at h
    rw [List.isPrefixOf_iff_prefix, List.prefix_iff_eq_take] at h
    rw [← h]
    exact hx
  · exact ⟨0, by simp [h], by simp⟩

theorem plusToSpace_ne_plus (c : Char) : plusToSpace c ≠ '+' := by
  unfold plusToSpace
  split_ifs with h
  · decide
  · exact h

theorem fileLocation_drop (env : Env) (track : Track) :
    ∃ k, (fileLocation env track).1.data = (QueryUnescape track.Location).1.data.drop k ∧
      ' ' ∉ (QueryUnescape track.Location).1.data.take k := by
  obtain ⟨k1, h1, g1⟩ :=
    TrimPrefix_drop (QueryUnescape track.Location).1 "file://localhost" (by decide)
  cases hw : env.isWindows with
  | false => exact ⟨k1, by simp [fileLocation, hw, h1], g1⟩
  | true =>
    obtain ⟨k2, h2, g2⟩ :=
      TrimPrefix_drop (TrimPrefix (QueryUnescape track.Location).1 "file://localhost") "/"
        (by decide)
    refine ⟨k1 + k2, ?_, ?_⟩
    · simp only [fileLocation, hw, if_true, h2, h1, List.drop_drop]
    · rw [List.take_add]
      rw [h1] at g2
      intro hmem
      rcases List.mem_append.mp hmem with h | h
      · exact g1 h
      · exact g2 h

/-- C14. Location decoding is query-style: for every stored location that
decodes, the decoded string is the pure percent-decoding of the location with
every `+` replaced by a space, and the resolved location written to the
playlist is that string less a leading part that holds no space, so every `+`
of the location is a space there.  A location with a `+` and without `%` is
therefore not written unchanged.  The escape `%2B` decodes to `+`. -/
theorem plus_decodes_to_space (env : Env) (track : Track) (d : String)
    (hd : QueryUnescape track.Location = (d, none)) :
    d.data = percentDecode (track.Location.data.map plusToSpace) ∧
    (∃ k, (fileLocation env track).1.data = d.data.drop k ∧ ' ' ∉ d.data.take k) ∧
    ('%' ∉ track.Location.data →
      d.data = track.Location.data.map plusToSpace ∧
      '+' ∉ (fileLocation env track).1.data ∧
      ('+' ∈ track.Location.data → (fileLocation env track).1 ≠ track.Location)) ∧
    (∀ a b da db : String, QueryUnescape a = (da, none) → QueryUnescape b = (db, none) →
      QueryUnescape (a ++ "%2B" ++ b) = (da ++ "+" ++ db, none)) := by
  have hd' := (QueryUnescape_ok_iff track.Location d).mp hd
  have h1 : d.data = percentDecode (track.Location.data.map plusToSpace) := by
    rw [hd'.2]
    exact unescapeBuild_eq_percentDecode _ _ (Nat.le_refl _)
  have h2 : ∃ k, (fileLocation env track).1.data = d.data.drop k ∧ ' ' ∉ d.data.take k := by
    have := fileLocation_drop env track
    rw [hd] at this
    exact this
  refine ⟨h1, h2, ?_, ?_⟩
  · intro hp
    have hmap : '%' ∉ track.Location.data.map plusToSpace := by
      intro hm
      obtain ⟨c, hc, hce⟩ := List.mem_map.mp hm
      rw [plusToSpace_eq_percent] at hce
      exact hp (hce ▸ hc)
    have hdm : d.data = track.Location.data.map plusToSpace := by
      rw [h1, percentDecode_of_no_percent _ hmap]
    have hplus : '+' ∉ (fileLocation env track).1.data := by
      obtain ⟨k, hk, _⟩ := h2
      intro hm
      rw [hk] at hm
      have := List.mem_of_mem_drop hm
      rw [hdm] at this
      obtain ⟨c, _, hce⟩ := List.mem_map.mp this
      exact plusToSpace_ne_plus c hce
    exact ⟨hdm, hplus, fun hin he => hplus (he ▸ hin)⟩
  · intro a b da db ha hb
    have ha' := (QueryUnescape_ok_iff a da).mp ha
    have hb' := (QueryUnescape_ok_iff b db).mp hb
    have e : (a ++ "%2B" ++ b).data = a.data ++ ('%' :: '2' :: 'B' :: b.data) := by
      simp [String.data_append]
    have hx := unescape_append ('%' :: '2' :: 'B' :: b.data) _ a.data (Nat.le_refl _) ha'.1
    rw [QueryUnescape_ok_iff, e, hx.1, hx.2, unescapeCheck_percent _ _ _ (by decide),
      unescapeBuild_percent]
    refine ⟨hb'.1, ?_⟩
    apply String.ext
    rw [ha'.2, hb'.2]
    simp only [String.data_append]
    have : Char.ofNat (unhex '2' * 16 + unhex 'B') = '+' := by decide
    rw [this]
    simp

/-- Witness for C14: the stored location `file://localhost/My+Music/a%2Bb.mp3`
is written as `/My Music/a+b.mp3`. -/
theorem plus_decodes_to_space_witness :
    QueryUnescape "file://localhost/My+Music/a%2Bb.mp3" =
      ("file://localhost/My Music/a+b.mp3", none) ∧
    (fileLocation (sampleEnv false)
      { Name := "Song", Artist := "Band", TotalTime := 1000,
        Location := "file://localhost/My+Music/a%2Bb.mp3" }).1 = "/My Music/a+b.mp3" ∧
    ("file://localhost/My Music/a+b.mp3" : String).data =
      percentDecode (("file://localhost/My+Music/a%2Bb.mp3" : String).data.map plusToSpace) ∧
    (exportPlaylist
      { sampleEnv false with
        Tracks := fun _ _ => [{ Name := "Song", Artist := "Band", TotalTime := 1000,
                                Location := "My+Music/song.mp3" }] }
      (sampleSettings M3U) { Name := "Rock", TrackIDs := [] } emptyWorld).world.files
        "/work/out/Rock.m3u" =
      some ("# M3U Playlist 'Rock' exported 2024-01-02 3:04PM by iTunes Export v. 1.0 " ++
        "(http://www.ericdaugherty.com/dev/itunesexport/)\n" ++ "My Music/song.mp3\n") := by
  have h := plus_decodes_to_space (sampleEnv false)
    { Name := "Song", Artist := "Band", TotalTime := 1000,
      Location := "file://localhost/My+Music/a%2Bb.mp3" }
    "file://localhost/My Music/a+b.mp3" (by decide)
  exact ⟨by decide, by decide, h.1, by decide⟩

/-! ## C15: playlists written to the same file -/

theorem dedup_length_lt_of_duplicate (x : String) (A B C : List String) :
    (A ++ x :: (B ++ x :: C)).dedup.length < (A ++ x :: (B ++ x :: C)).length := by
  have hsub := List.dedup_sublist (A ++ x :: (B ++ x :: C))
  rcases Nat.lt_or_ge (A ++ x :: (B ++ x :: C)).dedup.length
    (A ++ x :: (B ++ x :: C)).length with h | h
  · exact h
  · have heq := hsub.eq_of_length_le h
    have hnd : (A ++ x :: (B ++ x :: C)).Nodup := List.dedup_eq_self.mp heq
    have h2 := (List.nodup_cons.mp (List.Nodup.of_append_right hnd)).1
    exact absurd (by simp) h2

/-- C15 (amended). Collisions are not detected.  If two playlists of a request
have the same name, both are written to the same path
`filepath.Join(outputDir, name + "." + extension)`, hence to the same file, and
the open of the later one leaves the file empty whatever the earlier one wrote.
For a supported format the run succeeds on a host where every call succeeds,
and after a successful run the file holds only the output of the last playlist
written to that file: the last playlist with that name, provided the path of
no later playlist names the same file.  The files written are fewer than the
playlists, and no other file changes. -/
theorem name_collision_last_wins (env : Env) (st : ExportSettings) (w : World)
    (pre mid post : List Playlist) (p p' : Playlist)
    (hfmt : st.ExportType = M3U ∨ st.ExportType = EXT ∨ st.ExportType = WPL ∨
      st.ExportType = ZPL)
    (hpl : st.Playlists = pre ++ p :: (mid ++ p' :: post))
    (hname : p.Name = p'.Name)
    (hlast : ∀ r ∈ post,
      env.resolve (env.join st.OutputPath (r.Name ++ "." ++ st.Extension)) ≠
        env.resolve (env.join st.OutputPath (p'.Name ++ "." ++ st.Extension))) :
    fileName env st p = env.join st.OutputPath (p.Name ++ "." ++ st.Extension) ∧
    fileName env st p' = fileName env st p ∧
    fileOf env st p' = fileOf env st p ∧
    (∀ w' : World, env.outcome w'.ticks = Outcome.ok →
      (OpenFile env (fileName env st p') w').world.files (fileOf env st p) = some "") ∧
    ((∀ n, w.ticks ≤ n → env.outcome n = Outcome.ok) →
      (ExportPlaylists env st w).err = none) ∧
    ((ExportPlaylists env st w).err = none →
      ∃ tick, (ExportPlaylists env st w).world.files (fileOf env st p) =
        some (concatAll (pieces env st.ExportType p' (env.now tick)
          (env.Tracks p' st.Library)))) ∧
    (st.Playlists.map (fileOf env st)).dedup.length < st.Playlists.length ∧
    (∀ q : FileId, q ∉ st.Playlists.map (fileOf env st) →
      (ExportPlaylists env st w).world.files q = w.files q) := by
  have hsame : fileName env st p' = fileName env st p := by
    simp [fileName, hname]
  have hsameFile : fileOf env st p' = fileOf env st p := by
    simp [fileOf, hsame]
  refine ⟨rfl, hsame, hsameFile, ?_, ?_, ?_, ?_, ?_⟩
  · intro w' ho
    simp [OpenFile, ho, fileOf, hsame, setFile]
  · intro hok
    exact exportLoop_all_ok env st hfmt st.Playlists [] w hok
  · intro herr
    have hpl' : st.Playlists = (pre ++ p :: mid) ++ p' :: post := by
      rw [hpl]; simp
    rw [ExportPlaylists_err, hpl'] at herr
    obtain ⟨tick, ht⟩ := exportLoop_last_wins env st p' post hlast _ [] w herr
    refine ⟨tick, ?_⟩
    rw [ExportPlaylists_files, hpl', ← hsameFile]
    exact ht
  · have e : st.Playlists.map (fileOf env st) =
        pre.map (fileOf env st) ++ fileOf env st p ::
          (mid.map (fileOf env st) ++ fileOf env st p :: post.map (fileOf env st)) := by
      rw [hpl]; simp [hsameFile]
    have := dedup_length_lt_of_duplicate (fileOf env st p) (pre.map (fileOf env st))
      (mid.map (fileOf env st)) (post.map (fileOf env st))
    rw [← e] at this
    simpa using this
  · intro q hq
    rw [ExportPlaylists_files]
    exact exportLoop_frame env st q _ _ _ (fun r hr e => hq (by
      rw [e]; exact List.mem_map_of_mem (fileOf env st) hr))

set_option maxRecDepth 20000 in
/-- Witness for C15 (amended): the playlists "Rock", "Jazz" and again "Rock" as
Simple Lists; the run succeeds, two files are written for three playlists, and
`out/Rock.m3u` in the working directory `/work` holds the second "Rock" only. -/
theorem name_collision_last_wins_witness :
    (ExportPlaylists (sampleEnv false)
      { sampleSettings M3U with
        Playlists := [{ Name := "Rock", TrackIDs := [1] }, { Name := "Jazz", TrackIDs := [2] },
          { Name := "Rock", TrackIDs := [2] }] } emptyWorld).err = none ∧
    (ExportPlaylists (sampleEnv false)
      { sampleSettings M3U with
        Playlists := [{ Name := "Rock", TrackIDs := [1] }, { Name := "Jazz", TrackIDs := [2] },
          { Name := "Rock", TrackIDs := [2] }] } emptyWorld).world.files "/work/out/Rock.m3u" =
      some ("# M3U Playlist 'Rock' exported 2024-01-02 3:04PM by iTunes Export v. 1.0 " ++
        "(http://www.ericdaugherty.com/dev/itunesexport/)\n" ++ "/C:/Music/a tune.mp3\n") ∧
    (["/work/out/Rock.m3u", "/work/out/Jazz.m3u", "/work/out/Rock.m3u"].dedup).length <
      3 := by
  have h := name_collision_last_wins (sampleEnv false)
    { sampleSettings M3U with
      Playlists := [{ Name := "Rock", TrackIDs := [1] }, { Name := "Jazz", TrackIDs := [2] },
        { Name := "Rock", TrackIDs := [2] }] } emptyWorld
    [] [{ Name := "Jazz", TrackIDs := [2] }] []
    { Name := "Rock", TrackIDs := [1] } { Name := "Rock", TrackIDs := [2] }
    (Or.inl rfl) rfl rfl (fun r hr => absurd hr (by simp))
  exact ⟨h.2.2.2.2.1 (fun _ _ => rfl), by decide, by decide⟩

set_option maxRecDepth 20000 in
/-- Counterexample to C15 as stated: the playlists "Rock", "Rock" and "./Rock"
as Simple Lists on a host where every call succeeds.  The name "./Rock" is
joined to the path of "Rock", so after the successful run `out/Rock.m3u` holds
the output of "./Rock" and not that of the last playlist named "Rock".  The
same happens with the third name "../../work/out/Rock", joined to another path
that names the same file when the working directory is `/work`. -/
theorem name_collision_last_name_counterexample :
    unixJoin "out" ("Rock" ++ "." ++ "m3u") = "out/Rock.m3u" ∧
    unixJoin "out" ("./Rock" ++ "." ++ "m3u") = "out/Rock.m3u" ∧
    (ExportPlaylists (sampleEnv false)
      { sampleSettings M3U with
        Playlists := [{ Name := "Rock", TrackIDs := [1] }, { Name := "Rock", TrackIDs := [2] },
          { Name := "./Rock", TrackIDs := [1, 2] }] } emptyWorld).err = none ∧
    (ExportPlaylists (sampleEnv false)
      { sampleSettings M3U with
        Playlists := [{ Name := "Rock", TrackIDs := [1] }, { Name := "Rock", TrackIDs := [2] },
          { Name := "./Rock", TrackIDs := [1, 2] }] } emptyWorld).world.files
      "/work/out/Rock.m3u" =
      some ("# M3U Playlist './Rock' exported 2024-01-02 3:04PM by iTunes Export v. 1.0 " ++
        "(http://www.ericdaugherty.com/dev/itunesexport/)\n" ++
        "/C:/Music/song.mp3\n" ++ "/C:/Music/a tune.mp3\n") ∧
    (ExportPlaylists (sampleEnv false)
      { sampleSettings M3U with
        Playlists := [{ Name := "Rock", TrackIDs := [1] }, { Name := "Rock", TrackIDs := [2] },
          { Name := "./Rock", TrackIDs := [1, 2] }] } emptyWorld).world.files
      "/work/out/Rock.m3u" ≠
      some ("# M3U Playlist 'Rock' exported 2024-01-02 3:04PM by iTunes Export v. 1.0 " ++
        "(http://www.ericdaugherty.com/dev/itunesexport/)\n" ++ "/C:/Music/a tune.mp3\n") ∧
    unixJoin "out" ("../../work/out/Rock" ++ "." ++ "m3u") = "../work/out/Rock.m3u" ∧
    sampleResolve "out/Rock.m3u" = "/work/out/Rock.m3u" ∧
    sampleResolve "../work/out/Rock.m3u" = "/work/out/Rock.m3u" ∧
    (ExportPlaylists (sampleEnv false)
      { sampleSettings M3U with
        Playlists := [{ Name := "Rock", TrackIDs := [1] }, { Name := "Rock", TrackIDs := [2] },
          { Name := "../../work/out/Rock", TrackIDs := [1, 2] }] } emptyWorld).err = none ∧
    (ExportPlaylists (sampleEnv false)
      { sampleSettings M3U with
        Playlists := [{ Name := "Rock", TrackIDs := [1] }, { Name := "Rock", TrackIDs := [2] },
          { Name := "../../work/out/Rock", TrackIDs := [1, 2] }] } emptyWorld).world.files
      "/work/out/Rock.m3u" =
      some ("# M3U Playlist '../../work/out/Rock' exported 2024-01-02 3:04PM by " ++
        "iTunes Export v. 1.0 (http://www.ericdaugherty.com/dev/itunesexport/)\n" ++
        "/C:/Music/song.mp3\n" ++ "/C:/Music/a tune.mp3\n") := by
  refine ⟨by decide, by decide, by decide, by decide, by decide, by decide, by decide,
    by decide, by decide, by decide⟩

/-! ## C16: a request without playlists -/

/-- C16. The format identifier is examined inside the loop over the playlists,
after the file of the playlist has been opened.  So for a request with no
playlist `ExportPlaylists` returns success and leaves the world as it was, no
call reaching the operating system, for every integer `ExportType`, those
outside 0..3 included; and for a request with playlists the open of the first
one comes before the format: when it fails its error is returned whatever the
format, and when it succeeds with an unsupported format the file has been
created or emptied when `Export Type Not Implemented` is returned. -/
theorem no_playlists_no_effect (env : Env) (st : ExportSettings) (w : World) :
    (st.Playlists = [] → ExportPlaylists env st w = { err := none, world := w }) ∧
    (∀ (p : Playlist) (rest : List Playlist), st.Playlists = p :: rest →
      (∀ n text, env.outcome w.ticks = Outcome.fail n text →
        (ExportPlaylists env st w).err = some (GoError.osError text)) ∧
      (env.outcome w.ticks = Outcome.ok →
        ¬ (st.ExportType = 0 ∨ st.ExportType = 1 ∨ st.ExportType = 2 ∨ st.ExportType = 3) →
        (ExportPlaylists env st w).err =
          some (GoError.errorsNew "Export Type Not Implemented") ∧
        (ExportPlaylists env st w).world.files (fileOf env st p) = some "")) := by
  refine ⟨fun h => ?_, fun p rest hpl => ⟨fun n text ho => ?_, fun ho hfmt => ?_⟩⟩
  · simp [ExportPlaylists, h, exportLoop, runDeferred]
  · rw [ExportPlaylists_err, hpl]
    simp [exportLoop, exportPlaylist_open_fail env st p w n text ho]
  · have hs : ¬ (st.ExportType = M3U ∨ st.ExportType = EXT ∨ st.ExportType = WPL ∨
        st.ExportType = ZPL) := hfmt
    rw [ExportPlaylists_err, ExportPlaylists_files, hpl]
    simp [exportLoop, exportPlaylist_unsupported env st p w ho hs, setFile]

/-- Witness for C16: a request without playlists and with the identifier 7, in
a world that holds a file, even on a host whose first call would fail. -/
theorem no_playlists_no_effect_witness :
    ExportPlaylists (failingEnv 0 0) { sampleSettings 7 with Playlists := [] } earlierWorld =
      { err := none, world := earlierWorld } ∧
    ExportPlaylists (sampleEnv false) { sampleSettings (-1) with Playlists := [] } emptyWorld =
      { err := none, world := emptyWorld } :=
  ⟨(no_playlists_no_effect (failingEnv 0 0) { sampleSettings 7 with Playlists := [] }
      earlierWorld).1 rfl,
    (no_playlists_no_effect (sampleEnv false) { sampleSettings (-1) with Playlists := [] }
      emptyWorld).1 rfl⟩

end ItunesExport
